import Mathlib

/-!
Verification of the analytics and model-training core of the
Automated_Data_Analysis repository.

The development shallowly embeds the TypeScript source into Lean:

* JavaScript numbers are modelled as rationals (`ℚ`).  The transcendental
  library functions (`Math.sqrt`, `Math.exp`, `Math.log`, `Math.PI`,
  `Math.random`) have no exact rational counterpart and are abstracted as
  explicit parameters; every theorem below holds for an arbitrary
  interpretation of these parameters unless a hypothesis about them is
  stated.
* `Array.prototype.sort` with a numeric comparator is a stable sort and is
  modelled by `List.insertionSort`, which is also stable.
* Fallible or missing JavaScript values (`undefined`, holes created by
  out-of-range array writes) are modelled with `Option`.

Sources: `src/unnamed/part_003` (column profiler, relationship analyzer,
insight generator) and `src/src/utils/modeling.ts` (training dispatcher and
the eleven trainers).
-/

/-- Sum of a list of rationals, as `list.reduce((a, b) => a + b, 0)`. -/
def jsSum (l : List ℚ) : ℚ := l.foldl (· + ·) 0

/-- JavaScript `Math.round` on an exact rational: `⌊q + 1/2⌋`, which also
matches the JS behaviour on negative arguments. -/
def jsRound (q : ℚ) : ℤ := ⌊q + 1/2⌋

/-- First-occurrence deduplication, as `Array.from(new Set(xs))` /
`[...new Set(xs)]` (JS `Set` iterates in insertion order). -/
def jsUniq (l : List ℚ) : List ℚ :=
  l.foldl (fun acc v => if v ∈ acc then acc else acc ++ [v]) []

/-- JavaScript truthiness of an optional numeric record field: `undefined`
and `0` are falsy, every other (finite) number is truthy. -/
def jsTruthy : Option ℚ → Bool
  | none => false
  | some q => q ≠ 0

/-! ## Column profiler (`src/unnamed/part_003`, `detectColumnType`) -/

/-- A raw cell value as JavaScript sees it.  A string cell carries, besides
its text, the result of `Number(s)` (`none` meaning `NaN`) and whether
`Date.parse(s)` succeeds, because those two platform parsers live outside
the translated code. -/
inductive CellVal where
  | null
  | undef
  | boolV (b : Bool)
  | num (q : ℚ)
  | nan
  | strC (s : String) (numVal : Option ℚ) (dateOk : Bool)
deriving DecidableEq

/-- The `continue` guard of the sampling loop:
`val === null || val === undefined || val === ''`. -/
def cellSkipped : CellVal → Bool
  | .null => true
  | .undef => true
  | .strC s _ _ => s = ""
  | _ => false

/-- The boolean branch: `typeof val === 'boolean' || val === 'true' || val === 'false'`. -/
def cellBoolMatch : CellVal → Bool
  | .boolV _ => true
  | .strC s _ _ => s = "true" || s = "false"
  | _ => false

/-- The numeric branch: `!isNaN(Number(val)) && val !== ''`. -/
def cellNumMatch : CellVal → Bool
  | .num _ => true
  | .boolV _ => true
  | .strC s n _ => n.isSome && s ≠ ""
  | .null => true
  | _ => false

/-- The date branch: `!isNaN(Date.parse(String(val)))`.  `String(NaN)` is
`"NaN"`, which `Date.parse` rejects. -/
def cellDateMatch : CellVal → Bool
  | .strC _ _ d => d
  | _ => false

/-- Count of sampled values that land in the boolean branch of the
`if / else if` chain of `detectColumnType`. -/
def booleanCount (sample : List CellVal) : ℕ :=
  (sample.filter fun v => !cellSkipped v && cellBoolMatch v).length

/-- Count of sampled values that land in the numeric branch (so: not
skipped, not boolean-looking). -/
def numberCount (sample : List CellVal) : ℕ :=
  (sample.filter fun v => !cellSkipped v && !cellBoolMatch v && cellNumMatch v).length

/-- Count of sampled values that land in the date branch. -/
def dateCount (sample : List CellVal) : ℕ :=
  (sample.filter fun v =>
    !cellSkipped v && !cellBoolMatch v && !cellNumMatch v && cellDateMatch v).length

/-- The four inferable column types. -/
inductive ColType where
  | number | string | date | boolean
deriving DecidableEq

/-- Faithful port of `detectColumnType` (part_003, lines 3–26): samples the
first `min(100, n)` values; each non-skipped value is classified by the
first matching branch of the boolean/number/date chain; each count is then
compared against `sampleSize * 0.8`, where `sampleSize = min(100, n)`
counts the skipped (empty/missing) values as well. -/
def detectColumnType (values : List CellVal) : ColType :=
  let sampleSize := min 100 values.length
  let sample := values.take sampleSize
  if (booleanCount sample : ℚ) > (sampleSize : ℚ) * 0.8 then .boolean
  else if (numberCount sample : ℚ) > (sampleSize : ℚ) * 0.8 then .number
  else if (dateCount sample : ℚ) > (sampleSize : ℚ) * 0.8 then .date
  else .string

/-! ## Relationship analyzer (`calculateCorrelation`, `detectOutliers`, `detectTrend`) -/

/-- The numerator `n·Σxy − Σx·Σy` of the running-sums Pearson formula. -/
def corrNumerator (x y : List ℚ) : ℚ :=
  let n : ℚ := x.length
  let sumX := jsSum x
  let sumY := jsSum y
  let sumXY := (x.zip y).foldl (fun s p => s + p.1 * p.2) 0
  n * sumXY - sumX * sumY

/-- The radicand `(n·Σx² − (Σx)²)(n·Σy² − (Σy)²)` whose square root is the
Pearson denominator. -/
def corrDenomSq (x y : List ℚ) : ℚ :=
  let n : ℚ := x.length
  let sumX := jsSum x
  let sumY := jsSum y
  let sumX2 := x.foldl (fun s xi => s + xi * xi) 0
  let sumY2 := y.foldl (fun s yi => s + yi * yi) 0
  (n * sumX2 - sumX * sumX) * (n * sumY2 - sumY * sumY)

/-- Pearson correlation from running sums, as in `calculateCorrelation`
(part_003, lines 77–91).  `Math.sqrt` is the abstract parameter `sqrtFn`;
the zero test guarding the division is performed on the sqrt output,
exactly as in the source. -/
def calculateCorrelation (sqrtFn : ℚ → ℚ) (x y : List ℚ) : ℚ :=
  if x.length ≠ y.length ∨ x.length = 0 then 0
  else
    let numerator := corrNumerator x y
    let denominator := sqrtFn (corrDenomSq x y)
    if denominator = 0 then 0 else numerator / denominator

/-- Result of outlier detection: a count and the offending indices. -/
structure OutlierInfo where
  count : ℕ
  indices : List ℕ
deriving DecidableEq

/-- Port of `detectOutliers` (part_003, lines 93–108).  The source maps
each value to its index or `-1` and filters out the `-1`s; this is the
`filterMap` below. -/
def detectOutliers (values : List ℚ) : OutlierInfo :=
  if values.length < 4 then ⟨0, []⟩
  else
    let sorted := List.insertionSort (· ≤ ·) values
    let q1 := sorted.getD (⌊(sorted.length : ℚ) * 0.25⌋).toNat 0
    let q3 := sorted.getD (⌊(sorted.length : ℚ) * 0.75⌋).toNat 0
    let iqr := q3 - q1
    let lowerBound := q1 - 1.5 * iqr
    let upperBound := q3 + 1.5 * iqr
    let outlierIndices := values.enum.filterMap fun p =>
      if p.2 < lowerBound ∨ p.2 > upperBound then some p.1 else none
    ⟨outlierIndices.length, outlierIndices⟩

/-- The three trend classifications. -/
inductive Trend where
  | increasing | decreasing | stable
deriving DecidableEq

/-- Number of strictly increasing adjacent steps (`values[i] > values[i-1]`). -/
def upSteps (values : List ℚ) : ℕ :=
  ((values.zip values.tail).filter fun p => p.2 > p.1).length

/-- Number of strictly decreasing adjacent steps (`values[i] < values[i-1]`). -/
def downSteps (values : List ℚ) : ℕ :=
  ((values.zip values.tail).filter fun p => p.2 < p.1).length

/-- Port of `detectTrend` (part_003, lines 110–125).  Note the threshold in
the source is `values.length * 0.6` — sixty percent of `n`, not of the
`n − 1` adjacent steps. -/
def detectTrend (values : List ℚ) : Trend :=
  if values.length < 3 then .stable
  else
    let threshold : ℚ := (values.length : ℚ) * 0.6
    if (upSteps values : ℚ) > threshold then .increasing
    else if (downSteps values : ℚ) > threshold then .decreasing
    else .stable

/-! ## Insight generator (`generateInsights`, part_003, lines 127–291) -/

/-- Severity levels of an insight. -/
inductive Severity where
  | low | medium | high
deriving DecidableEq

/-- Insight categories. -/
inductive InsightType where
  | correlation | outlier | trend | summary
deriving DecidableEq

/-- An emitted insight.  The free-text `description` of the source is
presentational (number formatting via `toFixed`) and is not modelled; the
`type`, `title` and `severity` fields identify the rule and column. -/
structure Insight where
  type : InsightType
  title : String
  severity : Severity
deriving DecidableEq

/-- Column metadata, as in the `ColumnInfo` interface. -/
structure ColumnInfo where
  name : String
  type : ColType
deriving DecidableEq

/-- Per-column statistics snapshot, as in the `ColumnStats` interface.
Optional fields are `undefined` when absent. -/
structure ColumnStats where
  count : ℕ
  nullCount : ℕ
  uniqueCount : ℕ
  min? : Option ℚ := none
  max? : Option ℚ := none
  mean : Option ℚ := none
  median : Option ℚ := none
  stdDev : Option ℚ := none
deriving DecidableEq

/-- A data row: column name to raw cell value, as `Record<string, any>`. -/
def AnRow : Type := List (String × CellVal)

/-- `Number(row[col])` for an analytics row, `none` meaning `NaN`
(a missing key is `undefined`, which coerces to `NaN`). -/
def rowNumber (row : AnRow) (col : String) : Option ℚ :=
  match List.lookup col row with
  | none => none
  | some .null => some 0
  | some .undef => none
  | some (.boolV b) => some (if b then 1 else 0)
  | some (.num q) => some q
  | some .nan => none
  | some (.strC _ n _) => n

/-- `data.map(row => Number(row[col.name])).filter(v => !isNaN(v))`. -/
def numericValues (data : List AnRow) (col : String) : List ℚ :=
  data.filterMap fun row => rowNumber row col

/-- `calculateDataQuality` (part_003, lines 252–265):
`Math.round(((totalCells − missingCells) / totalCells) * 100)`.  When there
are no cells the JS division yields `NaN` (modelled as `none`). -/
def calculateDataQuality (data : List AnRow) (columnInfo : List ColumnInfo)
    (statistics : List (String × ColumnStats)) : Option ℤ :=
  let totalCells := data.length * columnInfo.length
  let missingCells : ℕ := (columnInfo.map fun col =>
    ((List.lookup col.name statistics).map ColumnStats.nullCount).getD 0).foldl (· + ·) 0
  if totalCells = 0 then none
  else some (jsRound ((((totalCells : ℚ) - (missingCells : ℚ)) / (totalCells : ℚ)) * 100))

/-- The always-emitted summary insight: severity low if the quality score
exceeds 80, medium if it exceeds 60, else high (a `NaN` score fails both
comparisons, giving high). -/
def summaryInsight (data : List AnRow) (columnInfo : List ColumnInfo)
    (statistics : List (String × ColumnStats)) : Insight :=
  let sev := match calculateDataQuality data columnInfo statistics with
    | some q => if q > 80 then Severity.low else if q > 60 then Severity.medium else Severity.high
    | none => Severity.high
  ⟨.summary, "Intelligent Dataset Analysis", sev⟩

/-- The outlier rule body for one numeric column (emitted only when
`values.length > 0` and outliers exist). -/
def outlierInsights (colName : String) (values : List ℚ) : List Insight :=
  let outliers := detectOutliers values
  if outliers.count > 0 then
    [⟨.outlier, "Anomalies Detected in " ++ colName,
      if (outliers.count : ℚ) > (values.length : ℚ) * 0.1 then .high else .medium⟩]
  else []

/-- The trend rule body for one numeric column. -/
def trendInsights (colName : String) (values : List ℚ) : List Insight :=
  let trend := detectTrend values
  if trend = Trend.stable then []
  else
    [⟨.trend,
      (if trend = Trend.increasing then "Upward" else "Downward") ++ " Trend in " ++ colName,
      .medium⟩]

/-- The coefficient-of-variation rule for one numeric column.  The source
guard is `if (stats.stdDev && stats.mean)`: both fields must be present
and non-zero (JS truthiness), otherwise neither branch runs. -/
def cvInsights (colName : String) (stats : ColumnStats) : List Insight :=
  if jsTruthy stats.stdDev && jsTruthy stats.mean then
    let cv := ((stats.stdDev.getD 0) / (stats.mean.getD 0)) * 100
    if cv > 75 then [⟨.trend, "Extreme Variability in " ++ colName, .high⟩]
    else if cv < 5 then [⟨.trend, "Low Variability in " ++ colName, .low⟩]
    else []
  else []

/-- The missing-data rule (part_003, lines 196–203); in the source this
check sits inside the `numericColumns.forEach` loop. -/
def missingDataInsights (colName : String) (stats : ColumnStats) (rowCount : ℕ) : List Insight :=
  if (stats.nullCount : ℚ) > (rowCount : ℚ) * 0.2 then
    [⟨.outlier, "Significant Missing Data in " ++ colName, .high⟩]
  else []

/-- The unique-values rule (part_003, lines 205–212), also inside the
numeric-columns loop. -/
def uniqueValueInsights (colName : String) (stats : ColumnStats) (rowCount : ℕ) : List Insight :=
  if stats.uniqueCount = rowCount then
    [⟨.summary, colName ++ " Contains Unique Values", .low⟩]
  else []

/-- All insights pushed for one numeric column, in source push order:
outliers, trend and CV run only when the column has at least one numeric
value; the missing-data and unique-count rules run unconditionally.
Columns without a statistics entry are skipped (`if (!stats) return`). -/
def numericColInsights (data : List AnRow) (statistics : List (String × ColumnStats))
    (col : ColumnInfo) : List Insight :=
  match List.lookup col.name statistics with
  | none => []
  | some stats =>
    let values := numericValues data col.name
    (if values.length > 0 then
      outlierInsights col.name values ++ trendInsights col.name values ++
        cvInsights col.name stats
     else []) ++
      missingDataInsights col.name stats data.length ++
      uniqueValueInsights col.name stats data.length

/-- `findCorrelations` (part_003, lines 267–291): all numeric column pairs
with more than 2 valid values each whose correlation exceeds 0.5 in
absolute value, sorted descending by absolute value (stable sort). -/
def findCorrelations (sqrtFn : ℚ → ℚ) (data : List AnRow)
    (numericColumns : List ColumnInfo) : List (String × String × ℚ) :=
  let pairs := (List.range numericColumns.length).flatMap fun i =>
    (List.range numericColumns.length).filterMap fun j =>
      if i < j then
        match numericColumns.getD i ⟨"", .number⟩, numericColumns.getD j ⟨"", .number⟩ with
        | c1, c2 => some (c1.name, c2.name)
      else none
  let correlations := pairs.filterMap fun p =>
    let values1 := numericValues data p.1
    let values2 := numericValues data p.2
    if values1.length > 2 ∧ values2.length > 2 then
      let correlation := calculateCorrelation sqrtFn values1 values2
      if |correlation| > 0.5 then some (p.1, p.2, correlation) else none
    else none
  List.insertionSort (fun a b => |a.2.2| ≥ |b.2.2|) correlations

/-- The correlation insight rule (part_003, lines 215–234). -/
def correlationInsights (sqrtFn : ℚ → ℚ) (data : List AnRow)
    (numericColumns : List ColumnInfo) : List Insight :=
  if numericColumns.length ≥ 2 then
    (findCorrelations sqrtFn data numericColumns).filterMap fun corr =>
      if |corr.2.2| > 0.7 then
        some ⟨.correlation,
          "Strong " ++ (if corr.2.2 > 0 then "Positive" else "Negative") ++ " Correlation Found",
          if |corr.2.2| > 0.9 then .high else .medium⟩
      else none
  else []

/-- The few-categories rule for one string column (part_003, lines
236–247).  The source reads `statistics[col.name]` without a presence
check here; rows from a complete statistics map are assumed, and a missing
entry is modelled as emitting nothing. -/
def stringColInsights (statistics : List (String × ColumnStats)) (rowCount : ℕ)
    (col : ColumnInfo) : List Insight :=
  match List.lookup col.name statistics with
  | none => []
  | some stats =>
    if (stats.uniqueCount : ℚ) < (rowCount : ℚ) * 0.05 then
      [⟨.summary, col.name ++ " Has Few Categories", .low⟩]
    else []

/-- Port of `generateInsights` (part_003, lines 127–250), in source push
order: the summary insight, the per-numeric-column rules, the correlation
rule, then the per-string-column rule. -/
def generateInsights (sqrtFn : ℚ → ℚ) (data : List AnRow)
    (columnInfo : List ColumnInfo) (statistics : List (String × ColumnStats)) : List Insight :=
  let numericColumns := columnInfo.filter fun c => c.type = ColType.number
  let stringColumns := columnInfo.filter fun c => c.type = ColType.string
  summaryInsight data columnInfo statistics ::
    (numericColumns.flatMap (numericColInsights data statistics) ++
      correlationInsights sqrtFn data numericColumns ++
      stringColumns.flatMap (stringColInsights statistics data.length))

/-! ## Training dispatcher: seeded shuffle and split (modeling.ts, lines 81–109) -/

/-- Linear congruential update `(seed * 9301 + 49297) % 233280`, with the
sign behaviour of the JS `%` operator (truncated division, `Int.tmod`). -/
def lcg (s : ℤ) : ℤ := (s * 9301 + 49297).tmod 233280

/-- Reading `arr[j]` on a JS array of possibly-undefined entries:
out-of-range indices give `undefined` (`none`). -/
def jsArrRead (l : List (Option β)) (j : ℤ) : Option β :=
  if h : 0 ≤ j ∧ j.toNat < l.length then l.get ⟨j.toNat, h.2⟩ else none

/-- Writing `arr[j] = v` on a JS array: an out-of-range write creates a
non-index property.  The shuffle below never reads an out-of-range index
it previously wrote (each loop step draws a fresh index), so such writes
are dropped. -/
def jsArrWrite (l : List (Option β)) (j : ℤ) (v : Option β) : List (Option β) :=
  if 0 ≤ j ∧ j.toNat < l.length then l.set j.toNat v else l

/-- The destructuring swap `[result[i], result[j]] = [result[j], result[i]]`:
both reads happen before either write, and `result[i]` is assigned first. -/
def jsSwap (l : List (Option β)) (i j : ℤ) : List (Option β) :=
  let vi := jsArrRead l i
  let vj := jsArrRead l j
  jsArrWrite (jsArrWrite l i vj) j vi

/-- The Fisher–Yates loop of `shuffle` for indices `i, i−1, …, 1`; the first
argument is the current loop index.  Each step draws
`j = Math.floor(random() * (i + 1))` where `random()` is the normalized LCG
value `currentSeed / 233280`. -/
def shuffleGo : ℕ → List (Option β) → ℤ → List (Option β) × ℤ
  | 0, l, s => (l, s)
  | i + 1, l, s =>
    let s' := lcg s
    let r : ℚ := (s' : ℚ) / 233280
    let j : ℤ := ⌊r * ((i : ℚ) + 2)⌋
    shuffleGo i (jsSwap l (i + 1) j) s'

/-- Effective initial seed, `seed || Date.now()`: an absent seed — or a
supplied seed of `0`, which is falsy — falls back to the clock value
`now`. -/
def effSeed (seed : Option ℤ) (now : ℤ) : ℤ :=
  match seed with
  | none => now
  | some s => if s = 0 then now else s

/-- Port of `shuffle` (modeling.ts, lines 94–109). -/
def shuffle (array : List (Option β)) (seed : Option ℤ) (now : ℤ) : List (Option β) :=
  (shuffleGo (array.length - 1) array (effSeed seed now)).1

/-- The two partitions returned by `splitData` (field order as in the
source object literal `{ trainData, testData }`). -/
structure SplitResult (β : Type) where
  trainData : List (Option β)
  testData : List (Option β)
deriving DecidableEq

/-- Port of `splitData` (modeling.ts, lines 81–92):
`testCount = Math.floor(data.length * testSize)`, the first `testCount`
shuffled rows are the test partition and the rest the train partition. -/
def splitData (data : List β) (testSize : ℚ) (seed : Option ℤ) (now : ℤ) : SplitResult β :=
  let shuffled := shuffle (data.map some) seed now
  let testCount := (⌊(data.length : ℚ) * testSize⌋).toNat
  ⟨shuffled.drop testCount, shuffled.take testCount⟩

/-! ## Model trainers (modeling.ts, lines 111–1122)

Each trainer returns its `TrainingResult` paired with the sequence of
values passed to `onProgress`, in call order (the callback is modelled as
always present; the values never depend on the numeric state). -/

/-- Abstract interpretations of the transcendental and random JS library
functions used by the trainers: `Math.sqrt`, `Math.exp`, `Math.log`,
`Math.PI`, and the stream of successive `Math.random()` results. -/
structure MathOps where
  sqrt : ℚ → ℚ
  exp : ℚ → ℚ
  log : ℚ → ℚ
  pi : ℚ
  random : ℕ → ℚ

/-- The eleven model identifiers. -/
inductive ModelType where
  | linear_regression | logistic_regression | decision_tree | random_forest
  | gradient_boosting | xgboost | svm | knn | naive_bayes | neural_network | kmeans
deriving DecidableEq

/-- The `TrainingResult` record; `metrics` and `featureImportance` keep
their key/value pairs in insertion order. -/
structure TrainingResult where
  modelType : ModelType
  metrics : List (String × ℚ)
  predictions : List ℚ
  actualValues : Option (List ℚ) := none
  featureImportance : Option (List (String × ℚ)) := none
  trainTime : ℚ := 0
  testAccuracy : Option ℚ := none
  trainAccuracy : Option ℚ := none

/-- A counted loop (`fuel` iterations starting at index `iter`) whose body
updates state `σ` and reports progress; returns the final state and the
emitted progress values. -/
def runLoop {σ : Type} (step : ℕ → σ → σ) (emit : ℕ → List ℚ) : ℕ → ℕ → σ → σ × List ℚ
  | 0, _, s => (s, [])
  | fuel + 1, iter, s =>
    let s' := step iter s
    let rest := runLoop step emit fuel (iter + 1) s'
    (rest.1, emit iter ++ rest.2)

/-- The progress values emitted by such a loop, in isolation (they never
depend on the state). -/
def emitSeq (emit : ℕ → List ℚ) : ℕ → ℕ → List ℚ
  | 0, _ => []
  | fuel + 1, iter => emit iter ++ emitSeq emit fuel (iter + 1)

/-- The recurring emission pattern
`if (iter % m === 0) onProgress(a + (iter / T) * b)`. -/
def emitPat (a b T : ℚ) (m : ℕ) (iter : ℕ) : List ℚ :=
  if iter % m = 0 then [a + ((iter : ℚ) / T) * b] else []

/-- `row.reduce((sum, x, i) => sum + x * w[i], 0)` for equal-length
vectors. -/
def dotW (row w : List ℚ) : ℚ := (row.zip w).foldl (fun s p => s + p.1 * p.2) 0

/-- Squared Euclidean distance,
`p.reduce((sum, val, i) => sum + Math.pow(val - c[i], 2), 0)`. -/
def sqDist (p c : List ℚ) : ℚ := (p.zip c).foldl (fun s q => s + (q.1 - q.2) ^ 2) 0

/-- `distances.indexOf(Math.min(...distances))`: index of the first
minimum, `-1` on an empty list (as `Math.min()` is `Infinity`). -/
def jsMinIndex (l : List ℚ) : ℤ :=
  match l with
  | [] => -1
  | x :: xs => (List.indexOf (xs.foldl min x) (x :: xs) : ℕ)

/-- `counts.indexOf(Math.max(...counts))` on natural counts. -/
def jsMaxIndex (l : List ℕ) : ℤ :=
  match l with
  | [] => -1
  | x :: xs => (List.indexOf (xs.foldl max x) (x :: xs) : ℕ)

/-- `sigmoid(z) = 1 / (1 + Math.exp(-z))`. -/
def sigmoid (ops : MathOps) (z : ℚ) : ℚ := 1 / (1 + ops.exp (-z))

/-- Classification tallies `accuracy`, `tp`, `fp`, `fn` shared by several
trainers (`pred === a && actual === b` counts over the aligned lists). -/
def predMatchCount (predictions y_test : List ℚ) (p a : ℚ) : ℕ :=
  ((predictions.zip y_test).filter fun q => q.1 = p ∧ q.2 = a).length

/-- `predictions.reduce((sum, pred, i) => sum + (pred === y_test[i] ? 1 : 0), 0) / y_test.length`. -/
def accuracyOf (predictions y_test : List ℚ) : ℚ :=
  (((predictions.zip y_test).filter fun q => q.1 = q.2).length : ℚ) / (y_test.length : ℚ)

/-- `mse` over the test partition. -/
def mseOf (predictions y_test : List ℚ) : ℚ :=
  ((predictions.zip y_test).foldl (fun s p => s + (p.1 - p.2) ^ 2) 0) / (y_test.length : ℚ)

/-- `r2 = 1 - ss_res / ss_tot` over the test partition. -/
def r2Of (predictions y_test : List ℚ) : ℚ :=
  let y_mean := jsSum y_test / (y_test.length : ℚ)
  let ss_tot := y_test.foldl (fun s yv => s + (yv - y_mean) ^ 2) 0
  let ss_res := (predictions.zip y_test).foldl (fun s p => s + (p.2 - p.1) ^ 2) 0
  1 - ss_res / ss_tot

/-- Precision/recall/f1 from the binary confusion counts; in ℚ the
`0/0` cases are already `0`, matching the `|| 0` fallbacks of the source
(where `0/0` is `NaN`, which is falsy). -/
def prf1 (predictions y_test : List ℚ) : ℚ × ℚ × ℚ :=
  let tp : ℚ := predMatchCount predictions y_test 1 1
  let fp : ℚ := predMatchCount predictions y_test 1 0
  let fneg : ℚ := predMatchCount predictions y_test 0 1
  let precision := tp / (tp + fp)
  let recl := tp / (tp + fneg)
  let f1 := 2 * (precision * recl) / (precision + recl)
  (precision, recl, f1)

/-- Strict comparison against a best-so-far value initialised to
`-Infinity` (`none`). -/
def gtOpt (gain : ℚ) : Option ℚ → Bool
  | none => true
  | some g => gain > g

/-- One batch-gradient-descent step shared by `trainLinearRegression`
(`act` the identity) and `trainLogisticRegression` (`act` the sigmoid):
the error vector is computed from the current weights and is fixed while
the per-weight updates run, so the source's sequential updates are
simultaneous. -/
def gdStep (act : ℚ → ℚ) (Xb : List (List ℚ)) (y : List ℚ) (n lr : ℚ)
    (w : List ℚ) : List ℚ :=
  let predictions := Xb.map fun row => act (dotW row w)
  let errors := (predictions.zip y).map fun p => p.1 - p.2
  w.enum.map fun jw =>
    let gradient := ((Xb.zip errors).foldl (fun s p => s + p.2 * p.1.getD jw.1 0) 0) / n
    jw.2 - lr * gradient

/-- Port of `trainLinearRegression` (modeling.ts, lines 111–178). -/
def trainLinearRegression (ops : MathOps) (X_train : List (List ℚ)) (y_train : List ℚ)
    (X_test : List (List ℚ)) (y_test : List ℚ) (featureNames : List String) :
    TrainingResult × List ℚ :=
  let n : ℚ := X_train.length
  let m := (X_train.headD []).length
  let Xb := X_train.map fun row => 1 :: row
  let w0 : List ℚ := List.replicate (m + 1) 0
  let res := runLoop (fun _ w => gdStep id Xb y_train n 0.01 w) (emitPat 20 60 1000 100) 1000 0 w0
  let weights := res.1
  let predictions := (X_test.map fun row => 1 :: row).map fun row => dotW row weights
  let mse := mseOf predictions y_test
  let rmse := ops.sqrt mse
  let r2 := r2Of predictions y_test
  let featureImportance := featureNames.enum.map fun p => (p.2, |weights.getD (p.1 + 1) 0|)
  (⟨.linear_regression, [("mse", mse), ("rmse", rmse), ("r2", r2)], predictions,
     some y_test, some featureImportance, 0, some r2, none⟩,
   20 :: res.2 ++ [80, 100])

/-- Port of `trainLogisticRegression` (modeling.ts, lines 180–250). -/
def trainLogisticRegression (ops : MathOps) (X_train : List (List ℚ)) (y_train : List ℚ)
    (X_test : List (List ℚ)) (y_test : List ℚ) (featureNames : List String) :
    TrainingResult × List ℚ :=
  let n : ℚ := X_train.length
  let m := (X_train.headD []).length
  let Xb := X_train.map fun row => 1 :: row
  let w0 : List ℚ := List.replicate (m + 1) 0
  let res := runLoop (fun _ w => gdStep (sigmoid ops) Xb y_train n 0.1 w)
    (emitPat 20 60 1000 100) 1000 0 w0
  let weights := res.1
  let predictions := (X_test.map fun row => 1 :: row).map fun row =>
    if sigmoid ops (dotW row weights) > 0.5 then (1 : ℚ) else 0
  let accuracy := accuracyOf predictions y_test
  let pr := prf1 predictions y_test
  let featureImportance := featureNames.enum.map fun p => (p.2, |weights.getD (p.1 + 1) 0|)
  (⟨.logistic_regression,
     [("accuracy", accuracy), ("precision", pr.1), ("recall", pr.2.1), ("f1", pr.2.2)],
     predictions, some y_test, some featureImportance, 0, some accuracy, none⟩,
   20 :: res.2 ++ [80, 100])

/-- Port of `trainDecisionTree` (modeling.ts, lines 252–295): a degenerate
stub predicting the training majority label for every test row; feature
importance is `Math.random()` noise. -/
def trainDecisionTree (ops : MathOps) (X_train : List (List ℚ)) (y_train : List ℚ)
    (X_test : List (List ℚ)) (y_test : List ℚ) (featureNames : List String) :
    TrainingResult × List ℚ :=
  let isClassification := y_train.all fun yv => yv = 0 ∨ yv = 1
  let uniqueLabels := jsUniq y_train
  let counts := uniqueLabels.map fun label => (y_train.filter (· = label)).length
  let majority := uniqueLabels.getD (jsMaxIndex counts).toNat 0
  let predictions := X_test.map fun _ => majority
  let accuracy :=
    if isClassification then accuracyOf predictions y_test
    else 1 / (1 + mseOf predictions y_test)
  let featureImportance := featureNames.enum.map fun p => (p.2, ops.random p.1)
  (⟨.decision_tree, [("accuracy", accuracy)], predictions,
     some y_test, some featureImportance, 0, some accuracy, none⟩,
   [50, 100])

/-- A regression/classification tree of the random-forest trainer. -/
inductive RTree where
  | leaf (value : ℚ)
  | node (featureIndex : ℕ) (threshold : ℚ) (left right : RTree)

/-- `predictTree` of `trainRandomForest`. -/
def predictRTree : RTree → List ℚ → ℚ
  | .leaf v, _ => v
  | .node f t l r, x => if x.getD f 0 ≤ t then predictRTree l x else predictRTree r x

/-- A leaf carrying the mean target of its samples. -/
def rfLeaf (y : List ℚ) : RTree := .leaf (jsSum y / (y.length : ℚ))

/-- `buildTree` of `trainRandomForest` (modeling.ts, lines 378–410).  The
first argument is the remaining depth budget (`maxDepth − depth`, so `0`
means `depth >= maxDepth`); `ctr` indexes the `Math.random()` stream, of
which each split consumes two values (feature index, then threshold). -/
def rfBuildTree (ops : MathOps) : ℕ → List (List ℚ) → List ℚ → ℕ → RTree × ℕ
  | 0, _, y, ctr => (rfLeaf y, ctr)
  | budget + 1, X, y, ctr =>
    if y.length < 5 then (rfLeaf y, ctr)
    else
      let featureIndex := (⌊ops.random ctr * ((X.headD []).length : ℚ)⌋).toNat
      let values := X.map fun row => row.getD featureIndex 0
      let threshold := values.getD (⌊ops.random (ctr + 1) * (values.length : ℚ)⌋).toNat 0
      let leftIdx := (X.enum.filter fun p => p.2.getD featureIndex 0 ≤ threshold).map Prod.fst
      let rightIdx := (X.enum.filter fun p => ¬(p.2.getD featureIndex 0 ≤ threshold)).map Prod.fst
      if leftIdx.length = 0 ∨ rightIdx.length = 0 then (rfLeaf y, ctr + 2)
      else
        let lres := rfBuildTree ops budget (leftIdx.map fun i => X.getD i [])
          (leftIdx.map fun i => y.getD i 0) (ctr + 2)
        let rres := rfBuildTree ops budget (rightIdx.map fun i => X.getD i [])
          (rightIdx.map fun i => y.getD i 0) lres.2
        (.node featureIndex threshold lres.1 rres.1, rres.2)

/-- Port of `trainRandomForest` (modeling.ts, lines 363–477): 10 trees on
bootstrap samples (each bootstrap consumes `X_train.length` random draws),
averaged test predictions rounded for classification targets. -/
def trainRandomForest (ops : MathOps) (X_train : List (List ℚ)) (y_train : List ℚ)
    (X_test : List (List ℚ)) (y_test : List ℚ) (featureNames : List String) :
    TrainingResult × List ℚ :=
  let numTrees := 10
  let isClassification := (jsUniq y_train).length ≤ 10
  let res := runLoop
    (fun _ (st : List RTree × ℕ) =>
      let bootIdx := (List.range X_train.length).map fun k =>
        (⌊ops.random (st.2 + k) * (X_train.length : ℚ)⌋).toNat
      let Xb := bootIdx.map fun i => X_train.getD i []
      let yb := bootIdx.map fun i => y_train.getD i 0
      let tres := rfBuildTree ops 5 Xb yb (st.2 + X_train.length)
      (st.1 ++ [tres.1], tres.2))
    (emitPat 10 70 10 1) numTrees 0 ([], 0)
  let trees := res.1.1
  let ctrF := res.1.2
  let predictions := X_test.map fun x =>
    let avg := jsSum (trees.map fun tree => predictRTree tree x) / (numTrees : ℚ)
    if isClassification then ((jsRound avg : ℤ) : ℚ) else avg
  let metrics : List (String × ℚ) :=
    if isClassification then
      [("accuracy", accuracyOf predictions y_test), ("trees", (numTrees : ℚ))]
    else
      let mse := mseOf predictions y_test
      [("mse", mse), ("rmse", ops.sqrt mse), ("r2", max 0 (r2Of predictions y_test)),
       ("trees", (numTrees : ℚ))]
  let testAccuracy :=
    if isClassification then accuracyOf predictions y_test
    else max 0 (r2Of predictions y_test)
  let featureImportance := featureNames.enum.map fun p =>
    (p.2, ops.random (ctrF + p.1) * 0.5 + 0.5)
  (⟨.random_forest, metrics, predictions, some y_test, some featureImportance, 0,
     some testAccuracy, none⟩,
   10 :: res.2 ++ [100])

/-- A boosting stump: one split with constant left/right contributions. -/
structure Stump where
  featureIndex : ℕ
  threshold : ℚ
  leftValue : ℚ
  rightValue : ℚ

/-- `predictStump` of `trainGradientBoosting`. -/
def predictStump (stump : Stump) (x : List ℚ) : ℚ :=
  if x.getD stump.featureIndex 0 ≤ stump.threshold then stump.leftValue else stump.rightValue

/-- `buildStump` of `trainGradientBoosting` (modeling.ts, lines 499–562):
exhaustive search over midpoints of consecutive distinct feature values,
maximising `|leftMean|·leftCount + |rightMean|·rightCount`, skipping
one-sided splits; leaf values are residual means. -/
def buildStump (X : List (List ℚ)) (residuals : List ℚ) : Stump :=
  let m := (X.headD []).length
  let cands := (List.range m).flatMap fun f =>
    let values := X.map fun row => row.getD f 0
    let sortedValues := List.insertionSort (· ≤ ·) (jsUniq values)
    (List.range (sortedValues.length - 1)).map fun i =>
      (f, (sortedValues.getD i 0 + sortedValues.getD (i + 1) 0) / 2)
  let best := cands.foldl (fun (best : Option ℚ × ℕ × ℚ) cand =>
    let acc := (X.zip residuals).foldl
      (fun (a : ℚ × ℚ × ℕ × ℕ) p =>
        if p.1.getD cand.1 0 ≤ cand.2 then (a.1 + p.2, a.2.1, a.2.2.1 + 1, a.2.2.2)
        else (a.1, a.2.1 + p.2, a.2.2.1, a.2.2.2 + 1)) (0, 0, 0, 0)
    if acc.2.2.1 = 0 ∨ acc.2.2.2 = 0 then best
    else
      let leftMean := acc.1 / (acc.2.2.1 : ℚ)
      let rightMean := acc.2.1 / (acc.2.2.2 : ℚ)
      let gain := |leftMean| * (acc.2.2.1 : ℚ) + |rightMean| * (acc.2.2.2 : ℚ)
      if gtOpt gain best.1 then (some gain, cand.1, cand.2) else best) (none, 0, 0)
  let bestFeature := best.2.1
  let bestThreshold := best.2.2
  let leftIdx := (X.enum.filter fun p => p.2.getD bestFeature 0 ≤ bestThreshold).map Prod.fst
  let rightIdx := (X.enum.filter fun p => ¬(p.2.getD bestFeature 0 ≤ bestThreshold)).map Prod.fst
  let leftValue :=
    if leftIdx.length > 0 then (leftIdx.foldl (fun s i => s + residuals.getD i 0) 0) / (leftIdx.length : ℚ)
    else 0
  let rightValue :=
    if rightIdx.length > 0 then (rightIdx.foldl (fun s i => s + residuals.getD i 0) 0) / (rightIdx.length : ℚ)
    else 0
  ⟨bestFeature, bestThreshold, leftValue, rightValue⟩

/-- Port of `trainGradientBoosting` (modeling.ts, lines 479–633). -/
def trainGradientBoosting (ops : MathOps) (X_train : List (List ℚ)) (y_train : List ℚ)
    (X_test : List (List ℚ)) (y_test : List ℚ) (featureNames : List String) :
    TrainingResult × List ℚ :=
  let numTrees := 20
  let isClassification := (jsUniq y_train).length ≤ 10
  let base := jsSum y_train / (y_train.length : ℚ)
  let init : List ℚ × List Stump := (List.replicate X_train.length base, [])
  let res := runLoop
    (fun _ st =>
      let residuals := (y_train.zip st.1).map fun p => p.1 - p.2
      let stump := buildStump X_train residuals
      ((st.1.zip X_train).map fun p => p.1 + 0.1 * predictStump stump p.2, st.2 ++ [stump]))
    (emitPat 10 80 20 1) numTrees 0 init
  let stumps := res.1.2
  let predictions := X_test.map fun x =>
    let pred := stumps.foldl (fun p st => p + 0.1 * predictStump st x) base
    if isClassification then ((jsRound pred : ℤ) : ℚ) else pred
  let metrics : List (String × ℚ) :=
    if isClassification then
      [("accuracy", accuracyOf predictions y_test), ("estimators", (numTrees : ℚ))]
    else
      let mse := mseOf predictions y_test
      [("mse", mse), ("rmse", ops.sqrt mse), ("r2", max 0 (r2Of predictions y_test)),
       ("estimators", (numTrees : ℚ))]
  let testAccuracy :=
    if isClassification then accuracyOf predictions y_test
    else max 0 (r2Of predictions y_test)
  let featureImportance := featureNames.enum.map fun p =>
    (p.2, ((stumps.filter fun st => st.featureIndex = p.1).length : ℚ) / (numTrees : ℚ))
  (⟨.gradient_boosting, metrics, predictions, some y_test, some featureImportance, 0,
     some testAccuracy, none⟩,
   10 :: res.2 ++ [100])

/-- A regularised boosted tree of the xgboost-style trainer. -/
inductive XTree where
  | leaf (weight : ℚ)
  | node (featureIndex : ℕ) (threshold : ℚ) (left right : XTree)

/-- `predictTree` of `trainXGBoost`. -/
def predictXTree : XTree → List ℚ → ℚ
  | .leaf w, _ => w
  | .node f t l r, x => if x.getD f 0 ≤ t then predictXTree l x else predictXTree r x

/-- A leaf with weight `-G / (H + λ)`, `λ = 1.0`. -/
def xgbLeaf (gradients hessians : List ℚ) : XTree :=
  .leaf (-(jsSum gradients) / (jsSum hessians + 1))

/-- `buildTree` of `trainXGBoost` (modeling.ts, lines 655–729): depth
budget `4 − depth`; a node becomes a leaf below 10 samples or on a
one-sided best split; candidate thresholds are midpoints of the first
`min(*, 10)` consecutive distinct values per feature; the split maximises
the regularised gain `GL²/(HL+λ) + GR²/(HR+λ) − (GL+GR)²/(HL+HR+λ)`. -/
def xgbBuildTree : ℕ → List (List ℚ) → List ℚ → List ℚ → XTree
  | 0, _, gradients, hessians => xgbLeaf gradients hessians
  | fuel + 1, X, gradients, hessians =>
    if X.length < 10 then xgbLeaf gradients hessians
    else
      let m := (X.headD []).length
      let cands := (List.range m).flatMap fun f =>
        let values := X.map fun row => row.getD f 0
        let sortedValues := List.insertionSort (· ≤ ·) (jsUniq values)
        (List.range (min (sortedValues.length - 1) 10)).map fun i =>
          (f, (sortedValues.getD i 0 + sortedValues.getD (i + 1) 0) / 2)
      let best := cands.foldl (fun (best : Option ℚ × ℕ × ℚ) cand =>
        let acc := (X.zip (gradients.zip hessians)).foldl
          (fun (a : ℚ × ℚ × ℚ × ℚ) p =>
            if p.1.getD cand.1 0 ≤ cand.2 then (a.1 + p.2.1, a.2.1, a.2.2.1 + p.2.2, a.2.2.2)
            else (a.1, a.2.1 + p.2.1, a.2.2.1, a.2.2.2 + p.2.2)) (0, 0, 0, 0)
        let gain := acc.1 ^ 2 / (acc.2.2.1 + 1) + acc.2.1 ^ 2 / (acc.2.2.2 + 1)
          - (acc.1 + acc.2.1) ^ 2 / (acc.2.2.1 + acc.2.2.2 + 1)
        if gtOpt gain best.1 then (some gain, cand.1, cand.2) else best) (none, 0, 0)
      let bestFeature := best.2.1
      let bestThreshold := best.2.2
      let leftIdx := (X.enum.filter fun p => p.2.getD bestFeature 0 ≤ bestThreshold).map Prod.fst
      let rightIdx := (X.enum.filter fun p => ¬(p.2.getD bestFeature 0 ≤ bestThreshold)).map Prod.fst
      if leftIdx.length = 0 ∨ rightIdx.length = 0 then xgbLeaf gradients hessians
      else
        .node bestFeature bestThreshold
          (xgbBuildTree fuel (leftIdx.map fun i => X.getD i [])
            (leftIdx.map fun i => gradients.getD i 0) (leftIdx.map fun i => hessians.getD i 0))
          (xgbBuildTree fuel (rightIdx.map fun i => X.getD i [])
            (rightIdx.map fun i => gradients.getD i 0) (rightIdx.map fun i => hessians.getD i 0))

/-- Port of `trainXGBoost` (modeling.ts, lines 635–802): 30 sequential
depth-4 trees with first-order gradients and constant Hessian 1; feature
importance is random noise. -/
def trainXGBoost (ops : MathOps) (X_train : List (List ℚ)) (y_train : List ℚ)
    (X_test : List (List ℚ)) (y_test : List ℚ) (featureNames : List String) :
    TrainingResult × List ℚ :=
  let numTrees := 30
  let isClassification := (jsUniq y_train).length ≤ 10
  let base := jsSum y_train / (y_train.length : ℚ)
  let init : List ℚ × List XTree := (List.replicate X_train.length base, [])
  let res := runLoop
    (fun _ st =>
      let gradients := (st.1.zip y_train).map fun p => p.1 - p.2
      let hessians : List ℚ := List.replicate X_train.length 1
      let tree := xgbBuildTree 4 X_train gradients hessians
      ((st.1.zip X_train).map fun p => p.1 + 0.1 * predictXTree tree p.2, st.2 ++ [tree]))
    (emitPat 10 80 30 1) numTrees 0 init
  let trees := res.1.2
  let predictions := X_test.map fun x =>
    let pred := trees.foldl (fun p tree => p + 0.1 * predictXTree tree x) base
    if isClassification then ((jsRound pred : ℤ) : ℚ) else pred
  let metrics : List (String × ℚ) :=
    if isClassification then
      [("accuracy", accuracyOf predictions y_test), ("estimators", (numTrees : ℚ))]
    else
      let mse := mseOf predictions y_test
      [("mse", mse), ("rmse", ops.sqrt mse), ("r2", max 0 (r2Of predictions y_test)),
       ("estimators", (numTrees : ℚ))]
  let testAccuracy :=
    if isClassification then accuracyOf predictions y_test
    else max 0 (r2Of predictions y_test)
  let featureImportance := featureNames.enum.map fun p => (p.2, ops.random p.1 * 0.8 + 0.2)
  (⟨.xgboost, metrics, predictions, some y_test, some featureImportance, 0,
     some testAccuracy, none⟩,
   10 :: res.2 ++ [100])

/-- The per-sample hinge-loss subgradient update of `trainSVM`
(lr = 0.001, λ = 0.01). -/
def svmSampleStep (x : List ℚ) (yv : ℚ) (wb : List ℚ × ℚ) : List ℚ × ℚ :=
  let prediction := dotW x wb.1 + wb.2
  if yv * prediction < 1 then
    (wb.1.enum.map fun p => p.2 + 0.001 * (yv * x.getD p.1 0 - 2 * 0.01 * p.2),
     wb.2 + 0.001 * yv)
  else
    (wb.1.map fun wj => wj + 0.001 * (-(2 * 0.01 * wj)), wb.2)

/-- Port of `trainSVM` (modeling.ts, lines 804–899): 100 epochs of
per-sample updates on labels normalised to {−1, +1}
(`y === 0 → −1, y > 0 → 1, else −1`). -/
def trainSVM (ops : MathOps) (X_train : List (List ℚ)) (y_train : List ℚ)
    (X_test : List (List ℚ)) (y_test : List ℚ) (featureNames : List String) :
    TrainingResult × List ℚ :=
  let isClassification := (jsUniq y_train).length ≤ 10
  let m := (X_train.headD []).length
  let normalizedY := y_train.map fun yv => if yv = 0 then (-1 : ℚ) else if yv > 0 then 1 else -1
  let init : List ℚ × ℚ := (List.replicate m 0, 0)
  let res := runLoop
    (fun _ wb => (X_train.zip normalizedY).foldl (fun acc p => svmSampleStep p.1 p.2 acc) wb)
    (emitPat 10 70 100 10) 100 0 init
  let weights := res.1.1
  let bias := res.1.2
  let predictions := X_test.map fun x => if dotW x weights + bias ≥ 0 then (1 : ℚ) else 0
  let metrics : List (String × ℚ) :=
    if isClassification then
      let pr := prf1 predictions y_test
      [("accuracy", accuracyOf predictions y_test), ("precision", pr.1),
       ("recall", pr.2.1), ("f1", pr.2.2)]
    else
      let mse := mseOf predictions y_test
      [("mse", mse), ("rmse", ops.sqrt mse)]
  let testAccuracy :=
    if isClassification then accuracyOf predictions y_test
    else 1 / (1 + ops.sqrt (mseOf predictions y_test))
  let featureImportance := featureNames.enum.map fun p => (p.2, |weights.getD p.1 0|)
  (⟨.svm, metrics, predictions, some y_test, some featureImportance, 0,
     some testAccuracy, none⟩,
   10 :: res.2 ++ [80, 100])

/-- The KNN vote for one test point: sort the train points by distance
(stable, as JS `sort`), take the `k` nearest, and pick the first label
whose count strictly exceeds all earlier counts (`Map` iteration order is
key insertion order, i.e. first occurrence among the neighbours). -/
def knnPredictOne (ops : MathOps) (X_train : List (List ℚ)) (y_train : List ℚ) (k : ℕ)
    (testPoint : List ℚ) : ℚ :=
  let distances := (X_train.zip y_train).map fun p =>
    (ops.sqrt (sqDist p.1 testPoint), p.2)
  let sorted := List.insertionSort (fun a b => a.1 ≤ b.1) distances
  let kNearest := sorted.take k
  let labelsInOrder := jsUniq (kNearest.map Prod.snd)
  let voted := labelsInOrder.foldl
    (fun (acc : ℕ × ℚ) label =>
      let c := (kNearest.filter fun p => p.2 = label).length
      if c > acc.1 then (c, label) else acc)
    (0, (kNearest.headD (0, 0)).2)
  voted.2

/-- Port of `trainKNN` (modeling.ts, lines 901–957), `k = min(5, n_train)`. -/
def trainKNN (ops : MathOps) (X_train : List (List ℚ)) (y_train : List ℚ)
    (X_test : List (List ℚ)) (y_test : List ℚ) (featureNames : List String) :
    TrainingResult × List ℚ :=
  let k := min 5 X_train.length
  let predictions := X_test.map fun x => knnPredictOne ops X_train y_train k x
  let accuracy := accuracyOf predictions y_test
  (⟨.knn, [("accuracy", accuracy), ("k", (k : ℚ))], predictions,
     some y_test, none, 0, some accuracy, none⟩,
   20 :: emitSeq (emitPat 20 60 (X_test.length : ℚ) 10) X_test.length 0 ++ [80, 100])

/-- The Gaussian density with the source's `1e-10` variance floor applied
before the square root: `(1 / (sqrt(2π)·std)) · exp(−(x−mean)²/(2·std²))`. -/
def gaussianProb (ops : MathOps) (x mean std : ℚ) : ℚ :=
  (1 / (ops.sqrt (2 * ops.pi) * std)) * ops.exp (-((x - mean) ^ 2) / (2 * std ^ 2))

/-- Per-class prior, per-feature means and stds of `trainNaiveBayes`. -/
def nbClassStats (ops : MathOps) (X_train : List (List ℚ)) (y_train : List ℚ) (cls : ℚ) :
    ℚ × List (ℚ × ℚ) :=
  let classData := ((X_train.zip y_train).filter fun p => p.2 = cls).map Prod.fst
  let prior := (classData.length : ℚ) / (y_train.length : ℚ)
  let meansStds := (List.range (X_train.headD []).length).map fun f =>
    let values := classData.map fun row => row.getD f 0
    let mean := jsSum values / (values.length : ℚ)
    let variance := (values.foldl (fun s v => s + (v - mean) ^ 2) 0) / (values.length : ℚ)
    (mean, ops.sqrt (variance + 1e-10))
  (prior, meansStds)

/-- The class decision for one test point: maximise
`log(prior) + Σ log(gaussianProb + 1e-10)` over the classes in
first-occurrence order, starting from `bestProb = -Infinity` and
`bestClass = classes[0]`. -/
def nbPredictOne (ops : MathOps) (classes : List ℚ) (stats : List (ℚ × List (ℚ × ℚ)))
    (x : List ℚ) : ℚ :=
  let chosen := (classes.zip stats).foldl
    (fun (acc : Option ℚ × ℚ) p =>
      let logProb := x.enum.foldl
        (fun s xf =>
          let ms := p.2.2.getD xf.1 (0, 0)
          s + ops.log (gaussianProb ops xf.2 ms.1 ms.2 + 1e-10))
        (ops.log p.2.1)
      if gtOpt logProb acc.1 then (some logProb, p.1) else acc)
    (none, classes.headD 0)
  chosen.2

/-- Port of `trainNaiveBayes` (modeling.ts, lines 959–1050). -/
def trainNaiveBayes (ops : MathOps) (X_train : List (List ℚ)) (y_train : List ℚ)
    (X_test : List (List ℚ)) (y_test : List ℚ) (featureNames : List String) :
    TrainingResult × List ℚ :=
  let classes := jsUniq y_train
  let stats := classes.map fun cls => nbClassStats ops X_train y_train cls
  let predictions := X_test.map fun x => nbPredictOne ops classes stats x
  let accuracy := accuracyOf predictions y_test
  let pr := prf1 predictions y_test
  (⟨.naive_bayes,
     [("accuracy", accuracy), ("precision", pr.1), ("recall", pr.2.1), ("f1", pr.2.2)],
     predictions, some y_test, none, 0, some accuracy, none⟩,
   20 :: 60 :: emitSeq (emitPat 60 30 (X_test.length : ℚ) 10) X_test.length 0 ++ [100])

/-- The frozen input→hidden random weights of `trainNeuralNetwork`
(`(Math.random() − 0.5) * 0.5`, row-major draw order). -/
def nnInputHidden (ops : MathOps) (inputSize hiddenSize : ℕ) : List (List ℚ) :=
  (List.range inputSize).map fun i =>
    (List.range hiddenSize).map fun h => (ops.random (i * hiddenSize + h) - 0.5) * 0.5

/-- The hidden activations: the source iterates over `weightsInputHidden[0]`
for the hidden index and sums `input[i] * weightsInputHidden[i][h]`. -/
def nnHidden (ops : MathOps) (wIH : List (List ℚ)) (input : List ℚ) : List ℚ :=
  (wIH.headD []).enum.map fun p =>
    sigmoid ops ((input.zip wIH).foldl (fun s q => s + q.1 * (q.2.getD p.1 0)) 0)

/-- One per-sample update of the hidden→output weights (the only trained
layer); `output` and `error` are fixed while the per-weight updates run. -/
def nnSampleStep (ops : MathOps) (wIH : List (List ℚ)) (input : List ℚ) (yv : ℚ)
    (wHO : List ℚ) : List ℚ :=
  let hidden := nnHidden ops wIH input
  let output := sigmoid ops (dotW hidden wHO)
  let error := yv - output
  wHO.enum.map fun p => p.2 + 0.01 * error * output * (1 - output) * hidden.getD p.1 0

/-- Port of `trainNeuralNetwork` (modeling.ts, lines 1052–1122): hidden
size `max(4, ⌊inputSize/2⌋)`, 50 epochs of per-sample updates to the
output layer only. -/
def trainNeuralNetwork (ops : MathOps) (X_train : List (List ℚ)) (y_train : List ℚ)
    (X_test : List (List ℚ)) (y_test : List ℚ) (featureNames : List String) :
    TrainingResult × List ℚ :=
  let inputSize := (X_train.headD []).length
  let hiddenSize := max 4 (inputSize / 2)
  let wIH := nnInputHidden ops inputSize hiddenSize
  let wHO0 := (List.range hiddenSize).map fun i =>
    (ops.random (inputSize * hiddenSize + i) - 0.5) * 0.5
  let res := runLoop
    (fun _ wHO => (X_train.zip y_train).foldl (fun acc p => nnSampleStep ops wIH p.1 p.2 acc) wHO)
    (emitPat 10 80 50 5) 50 0 wHO0
  let wHO := res.1
  let predictions := X_test.map fun input =>
    let output := sigmoid ops (dotW (nnHidden ops wIH input) wHO)
    if output > 0.5 then (1 : ℚ) else 0
  let accuracy := accuracyOf predictions y_test
  let featureImportance := featureNames.enum.map fun p =>
    (p.2, (jsSum ((wIH.getD p.1 []).map abs)) / (hiddenSize : ℚ))
  (⟨.neural_network, [("accuracy", accuracy), ("hidden_neurons", (hiddenSize : ℚ))],
     predictions, some y_test, some featureImportance, 0, some accuracy, none⟩,
   res.2 ++ [90, 100])

/-- One Lloyd iteration of `trainKMeans`: assign every training point to
its nearest centroid (first minimum wins) and recompute centroid means;
an empty cluster falls back to the previous iteration's first centroid. -/
def kmeansStep (ops : MathOps) (X_train : List (List ℚ)) (k : ℕ)
    (centroids : List (List ℚ)) : List (List ℚ) :=
  let clusters := X_train.enum.foldl
    (fun (cl : List (List ℕ)) p =>
      let distances := centroids.map fun c => ops.sqrt (sqDist p.2 c)
      let closest := (jsMinIndex distances).toNat
      cl.set closest (cl.getD closest [] ++ [p.1]))
    (List.replicate k [])
  clusters.map fun cluster =>
    if cluster.length = 0 then centroids.headD []
    else
      let points := cluster.map fun idx => X_train.getD idx []
      (points.headD []).enum.map fun p =>
        (points.foldl (fun s pt => s + pt.getD p.1 0) 0) / (points.length : ℚ)

/-- Port of `trainKMeans` (modeling.ts, lines 297–361): `k = min(3, n_train)`,
centroids initialised to the first `k` training points, 100 iterations.
Test predictions are nearest-centroid indices. -/
def trainKMeans (ops : MathOps) (X_train : List (List ℚ)) (X_test : List (List ℚ))
    (featureNames : List String) : TrainingResult × List ℚ :=
  let k := min 3 X_train.length
  let res := runLoop (fun _ c => kmeansStep ops X_train k c)
    (emitPat 20 60 100 10) 100 0 (X_train.take k)
  let centroids := res.1
  let predIdx := X_test.map fun point =>
    jsMinIndex (centroids.map fun c => ops.sqrt (sqDist point c))
  let predictions := predIdx.map fun i => (Int.cast i : ℚ)
  let inertia := ((X_test.zip predIdx).foldl
    (fun s p => s + ops.sqrt (sqDist p.1 (centroids.getD p.2.toNat [])))
    0) / (X_test.length : ℚ)
  (⟨.kmeans, [("clusters", (k : ℚ)), ("inertia", inertia)], predictions,
     none, none, 0, none, none⟩,
   20 :: res.2 ++ [80, 100])

/-! ## Training dispatcher (`trainModel`, modeling.ts, lines 22–79) -/

/-- A dispatcher-level data row: column name to numeric value.  The
`Number(...)` coercion of raw cells happens upstream of the trainers and
never affects the shapes the claims below concern. -/
def DRow : Type := List (String × ℚ)

instance : DecidableEq DRow :=
  inferInstanceAs (DecidableEq (List (String × ℚ)))

/-- The `ModelConfig` record. -/
structure ModelConfig where
  type : ModelType
  targetColumn : String
  featureColumns : List String
  testSize : ℚ
  randomSeed : Option ℤ := none

/-- `Number(row[col])` after the split.  A destroyed row (`none`, possible
only under a negative effective seed, where the original code throws) and
a missing key default to `0`; the theorems below restrict to nonnegative
effective seeds, where every row is intact. -/
def rowGet (row : Option DRow) (col : String) : ℚ :=
  match row with
  | some r => (List.lookup col r).getD 0
  | none => 0

/-- Port of `trainModel` (modeling.ts, lines 22–79): split, project the
feature/target columns, dispatch on the model type, and overwrite
`trainTime` with the elapsed wall time. -/
def trainModel (ops : MathOps) (data : List DRow) (config : ModelConfig)
    (now : ℤ) (elapsed : ℚ) : TrainingResult × List ℚ :=
  let split := splitData data config.testSize config.randomSeed now
  let X_train := split.trainData.map fun row => config.featureColumns.map (rowGet row)
  let y_train := split.trainData.map fun row => rowGet row config.targetColumn
  let X_test := split.testData.map fun row => config.featureColumns.map (rowGet row)
  let y_test := split.testData.map fun row => rowGet row config.targetColumn
  let res :=
    match config.type with
    | .linear_regression => trainLinearRegression ops X_train y_train X_test y_test config.featureColumns
    | .logistic_regression => trainLogisticRegression ops X_train y_train X_test y_test config.featureColumns
    | .decision_tree => trainDecisionTree ops X_train y_train X_test y_test config.featureColumns
    | .random_forest => trainRandomForest ops X_train y_train X_test y_test config.featureColumns
    | .gradient_boosting => trainGradientBoosting ops X_train y_train X_test y_test config.featureColumns
    | .xgboost => trainXGBoost ops X_train y_train X_test y_test config.featureColumns
    | .svm => trainSVM ops X_train y_train X_test y_test config.featureColumns
    | .knn => trainKNN ops X_train y_train X_test y_test config.featureColumns
    | .naive_bayes => trainNaiveBayes ops X_train y_train X_test y_test config.featureColumns
    | .neural_network => trainNeuralNetwork ops X_train y_train X_test y_test config.featureColumns
    | .kmeans => trainKMeans ops X_train X_test config.featureColumns
  ({ res.1 with trainTime := elapsed }, res.2)

/-- The lower IQR fence `Q1 − 1.5·IQR` exactly as `detectOutliers`
computes it (nearest-rank quartiles on the ascending sort). -/
def iqrLowerBound (values : List ℚ) : ℚ :=
  let sorted := List.insertionSort (· ≤ ·) values
  let q1 := sorted.getD (⌊(sorted.length : ℚ) * 0.25⌋).toNat 0
  let q3 := sorted.getD (⌊(sorted.length : ℚ) * 0.75⌋).toNat 0
  q1 - 1.5 * (q3 - q1)

/-- The upper IQR fence `Q3 + 1.5·IQR` of `detectOutliers`. -/
def iqrUpperBound (values : List ℚ) : ℚ :=
  let sorted := List.insertionSort (· ≤ ·) values
  let q1 := sorted.getD (⌊(sorted.length : ℚ) * 0.25⌋).toNat 0
  let q3 := sorted.getD (⌊(sorted.length : ℚ) * 0.75⌋).toNat 0
  q3 + 1.5 * (q3 - q1)

/-- The progress contract the spec states for the trainers: values
monotonically non-decreasing within [0, 100], a low (≤ 20) first call, a
final call of exactly 100, and at least one call strictly between the
first and the last (so at least three calls). -/
def ProgressContract (t : List ℚ) : Prop :=
  t.Chain' (· ≤ ·) ∧ (∀ v ∈ t, 0 ≤ v ∧ v ≤ 100) ∧ t.getLast? = some 100 ∧
    (∃ v, t.head? = some v ∧ v ≤ 20) ∧ 3 ≤ t.length

/-! ## Shared lemmas -/

theorem jsSum_append (l : List ℚ) (a v : ℚ) :
    (l ++ [v]).foldl (· + ·) a = l.foldl (· + ·) a + v := by
  induction l generalizing a with
  | nil => simp
  | cons x xs ih => simp [ih]

theorem foldl_add_shift (l : List ℚ) (a : ℚ) :
    l.foldl (· + ·) a = a + l.foldl (· + ·) 0 := by
  induction l generalizing a with
  | nil => simp
  | cons x xs ih =>
    simp only [List.foldl_cons]
    rw [ih (a + x), ih (0 + x)]
    ring

theorem jsSum_allEq (l : List ℚ) (c : ℚ) (h : ∀ v ∈ l, v = c) :
    jsSum l = l.length * c := by
  induction l with
  | nil => simp [jsSum]
  | cons x xs ih =>
    have hx : x = c := h x (by simp)
    have ihx : jsSum xs = xs.length * c := ih fun v hv => h v (by simp [hv])
    simp only [jsSum, List.foldl_cons] at ihx ⊢
    rw [foldl_add_shift, ihx, hx]
    simp only [List.length_cons]
    push_cast
    ring

theorem foldl_sq_shift (l : List ℚ) (a : ℚ) :
    l.foldl (fun s xi => s + xi * xi) a = a + l.foldl (fun s xi => s + xi * xi) 0 := by
  induction l generalizing a with
  | nil => simp
  | cons x xs ih =>
    simp only [List.foldl_cons]
    rw [ih (a + x * x), ih (0 + x * x)]
    ring

theorem foldl_sq_allEq (l : List ℚ) (c : ℚ) (h : ∀ v ∈ l, v = c) :
    l.foldl (fun s xi => s + xi * xi) 0 = l.length * (c * c) := by
  induction l with
  | nil => simp
  | cons x xs ih =>
    have hx : x = c := h x (by simp)
    have ihx := ih fun v hv => h v (by simp [hv])
    simp only [List.foldl_cons]
    rw [foldl_sq_shift, ihx, hx]
    simp only [List.length_cons]
    push_cast
    ring

/-! ## Claim C2 — trend detection -/

/-- Claim C2, counterexample: on `[1, 2, 3, 4, 4]` there are 3 strictly
increasing steps, which exceeds 60% of the `n − 1 = 4` steps, so the claim
classifies the sequence "increasing"; `detectTrend` compares against
`0.6 × n = 3` and returns "stable". -/
theorem detectTrend_n_minus_one_counterexample :
    detectTrend [1, 2, 3, 4, 4] = Trend.stable ∧
      (upSteps [1, 2, 3, 4, 4] : ℚ) > 0.6 * (([1, 2, 3, 4, 4] : List ℚ).length - 1) := by
  apply of_decide_eq_true
  with_unfolding_all rfl

/-- Claim C2 (amended): trend detection counts strictly increasing and
strictly decreasing adjacent steps over the whole sequence and classifies
"increasing" (resp. "decreasing") exactly when that count exceeds 60% of
`n` (the sequence length, not `n − 1`); for `n < 3` the result is always
"stable"; `[1,2,3,4,5]` yields "increasing", `[5,4,3,2,1]` yields
"decreasing" and `[1,3,1,3,1]` yields "stable". -/
theorem detectTrend_spec (values : List ℚ) :
    (detectTrend values = Trend.increasing ↔
      3 ≤ values.length ∧ (upSteps values : ℚ) > (values.length : ℚ) * 0.6) ∧
    (detectTrend values = Trend.decreasing ↔
      3 ≤ values.length ∧ ¬((upSteps values : ℚ) > (values.length : ℚ) * 0.6) ∧
        (downSteps values : ℚ) > (values.length : ℚ) * 0.6) ∧
    (values.length < 3 → detectTrend values = Trend.stable) ∧
    detectTrend [1, 2, 3, 4, 5] = Trend.increasing ∧
    detectTrend [5, 4, 3, 2, 1] = Trend.decreasing ∧
    detectTrend [1, 3, 1, 3, 1] = Trend.stable := by
  refine ⟨?_, ?_, ?_, ?_, ?_, ?_⟩
  · simp only [detectTrend]
    split_ifs with h1 h2 h3
    · exact iff_of_false id (fun hc => by omega)
    · exact iff_of_true rfl ⟨by omega, h2⟩
    · exact iff_of_false id (fun hc => h2 hc.2)
    · exact iff_of_false id (fun hc => h2 hc.2)
  · simp only [detectTrend]
    split_ifs with h1 h2 h3
    · exact iff_of_false id (fun hc => by omega)
    · exact iff_of_false id (fun hc => hc.2.1 h2)
    · exact iff_of_true rfl ⟨by omega, h2, h3⟩
    · exact iff_of_false id (fun hc => h3 hc.2.2)
  · intro h
    simp [detectTrend, h]
  · apply of_decide_eq_true; with_unfolding_all rfl
  · apply of_decide_eq_true; with_unfolding_all rfl
  · apply of_decide_eq_true; with_unfolding_all rfl

/-- Claim C2 witness: the amended theorem applied at `[1,2,3,4,4]`,
discharging the `n < 3` hypothesis branch at `[7]`. -/
theorem detectTrend_spec_witness :
    ([7] : List ℚ).length < 3 ∧ detectTrend [7] = Trend.stable :=
  ⟨by norm_num, (detectTrend_spec [7]).2.2.1 (by norm_num)⟩

/-! ## Claim C3 — column type inference -/

/-- Claim C3, counterexample: in `[1, null, null, null, null]` every
non-empty sampled value is numeric, yet the inferred type is `string`,
because the 80% threshold is taken of the full sample size (5, empties
included): `numberCount = 1 ≤ 4 = 5 × 0.8`. -/
theorem detectColumnType_nonempty_counterexample :
    detectColumnType [CellVal.num 1, .null, .null, .null, .null] = ColType.string ∧
      (([CellVal.num 1, .null, .null, .null, .null].filter
        fun v => !cellSkipped v).all cellNumMatch) = true ∧
      detectColumnType [CellVal.num 1, .null, .null, .null, .null] ≠ ColType.number := by
  apply of_decide_eq_true
  with_unfolding_all rfl

/-- Claim C3 (amended): type inference examines at most the first 100
values; a type is assigned when its match count exceeds 80% of the sample
size `min(100, n)` — counting the skipped empty/missing values in the
denominator, not only the non-empty ones — checking boolean before numeric
before date and defaulting to string.  Consequently an all-numeric-non-empty
sample infers `number` only when the numeric count itself clears 80% of
`min(100, n)`. -/
theorem detectColumnType_spec (values : List CellVal) :
    (detectColumnType values = ColType.boolean ↔
      (booleanCount (values.take (min 100 values.length)) : ℚ) >
        ((min 100 values.length : ℕ) : ℚ) * 0.8) ∧
    (detectColumnType values = ColType.number ↔
      ¬((booleanCount (values.take (min 100 values.length)) : ℚ) >
        ((min 100 values.length : ℕ) : ℚ) * 0.8) ∧
      (numberCount (values.take (min 100 values.length)) : ℚ) >
        ((min 100 values.length : ℕ) : ℚ) * 0.8) ∧
    (detectColumnType values = ColType.date ↔
      ¬((booleanCount (values.take (min 100 values.length)) : ℚ) >
        ((min 100 values.length : ℕ) : ℚ) * 0.8) ∧
      ¬((numberCount (values.take (min 100 values.length)) : ℚ) >
        ((min 100 values.length : ℕ) : ℚ) * 0.8) ∧
      (dateCount (values.take (min 100 values.length)) : ℚ) >
        ((min 100 values.length : ℕ) : ℚ) * 0.8) ∧
    (detectColumnType values = ColType.string ↔
      ¬((booleanCount (values.take (min 100 values.length)) : ℚ) >
        ((min 100 values.length : ℕ) : ℚ) * 0.8) ∧
      ¬((numberCount (values.take (min 100 values.length)) : ℚ) >
        ((min 100 values.length : ℕ) : ℚ) * 0.8) ∧
      ¬((dateCount (values.take (min 100 values.length)) : ℚ) >
        ((min 100 values.length : ℕ) : ℚ) * 0.8)) := by
  refine ⟨?_, ?_, ?_, ?_⟩ <;> simp only [detectColumnType] <;> split_ifs with h1 h2 h3
  · exact iff_of_true rfl h1
  · exact iff_of_false id (fun hc => h1 hc)
  · exact iff_of_false id (fun hc => h1 hc)
  · exact iff_of_false id (fun hc => h1 hc)
  · exact iff_of_false id (fun hc => hc.1 h1)
  · exact iff_of_true rfl ⟨h1, h2⟩
  · exact iff_of_false id (fun hc => h2 hc.2)
  · exact iff_of_false id (fun hc => h2 hc.2)
  · exact iff_of_false id (fun hc => hc.1 h1)
  · exact iff_of_false id (fun hc => hc.2.1 h2)
  · exact iff_of_true rfl ⟨h1, h2, h3⟩
  · exact iff_of_false id (fun hc => h3 hc.2.2)
  · exact iff_of_false id (fun hc => hc.1 h1)
  · exact iff_of_false id (fun hc => hc.2.1 h2)
  · exact iff_of_false id (fun hc => hc.2.2 h3)
  · exact iff_of_true rfl ⟨h1, h2, h3⟩

/-! ## Claim C6 — IQR outlier detection -/

/-- Claim C6 (confirmed): with fewer than 4 values, `detectOutliers`
reports zero outliers and an empty index list; with at least 4 values it
computes Q1 and Q3 by nearest-rank indexing (`⌊n·0.25⌋`, `⌊n·0.75⌋`) on
the ascending sort and flags exactly the indices of values strictly
outside `[Q1 − 1.5·IQR, Q3 + 1.5·IQR]`; on `[1,…,9,100]` exactly the
value `100` (index 9) is flagged. -/
theorem detectOutliers_spec (values : List ℚ) :
    (values.length < 4 → detectOutliers values = ⟨0, []⟩) ∧
    (4 ≤ values.length → ∀ i : ℕ,
      (i ∈ (detectOutliers values).indices ↔
        ∃ v, values.get? i = some v ∧
          (v < iqrLowerBound values ∨ v > iqrUpperBound values))) ∧
    (detectOutliers values).count = (detectOutliers values).indices.length ∧
    detectOutliers [1, 2, 3, 4, 5, 6, 7, 8, 9, 100] = ⟨1, [9]⟩ := by
  refine ⟨?_, ?_, ?_, ?_⟩
  · intro h
    simp [detectOutliers, h]
  · intro h i
    have hnot : ¬ values.length < 4 := by omega
    simp only [detectOutliers, if_neg hnot, iqrLowerBound, iqrUpperBound,
      List.mem_filterMap]
    constructor
    · rintro ⟨⟨idx, v⟩, hmem, hf⟩
      by_cases hc : v < iqrLowerBound values ∨ v > iqrUpperBound values
      · have hidx : idx = i := by
          simp only [iqrLowerBound, iqrUpperBound] at hc
          rw [if_pos hc] at hf
          exact Option.some.inj hf
        refine ⟨v, ?_, ?_⟩
        · rw [← hidx]
          exact List.mem_enum_iff_get?.1 hmem
        · simpa [iqrLowerBound, iqrUpperBound] using hc
      · simp only [iqrLowerBound, iqrUpperBound] at hc
        rw [if_neg hc] at hf
        exact absurd hf (by simp)
    · rintro ⟨v, hget, hcond⟩
      refine ⟨(i, v), List.mem_enum_iff_get?.2 hget, ?_⟩
      rw [if_pos hcond]
  · simp only [detectOutliers]
    split_ifs <;> rfl
  · apply of_decide_eq_true
    with_unfolding_all rfl

/-- Claim C6 witness: the small-input branch of the theorem at `[1, 2]`. -/
theorem detectOutliers_spec_witness :
    ([1, 2] : List ℚ).length < 4 ∧ detectOutliers [1, 2] = ⟨0, []⟩ :=
  ⟨by norm_num, (detectOutliers_spec [1, 2]).1 (by norm_num)⟩

/-! ## Claim C5 — correlation guards -/

/-- Claim C5 (confirmed): `calculateCorrelation` returns exactly 0 when
`x` is empty, when the lengths differ, or when the denominator
`sqrt((n·Σx²−(Σx)²)(n·Σy²−(Σy)²))` is exactly zero — in particular for a
constant `x` (where the radicand itself vanishes and `Math.sqrt 0 = 0`);
in all other cases it returns the Pearson coefficient computed from the
running sums.  The degenerate cases return the number 0 rather than any
error value, which is the rational-model reading of "never propagates
NaN/Infinity from a zero denominator". -/
theorem calculateCorrelation_spec (sqrtFn : ℚ → ℚ) (x y : List ℚ) :
    (x.length = 0 → calculateCorrelation sqrtFn x y = 0) ∧
    (x.length ≠ y.length → calculateCorrelation sqrtFn x y = 0) ∧
    (sqrtFn (corrDenomSq x y) = 0 → calculateCorrelation sqrtFn x y = 0) ∧
    ((∀ v ∈ x, v = x.headD 0) → sqrtFn 0 = 0 → calculateCorrelation sqrtFn x y = 0) ∧
    (x.length = y.length → x.length ≠ 0 → sqrtFn (corrDenomSq x y) ≠ 0 →
      calculateCorrelation sqrtFn x y = corrNumerator x y / sqrtFn (corrDenomSq x y)) := by
  have hcc : calculateCorrelation sqrtFn x y =
      if x.length ≠ y.length ∨ x.length = 0 then 0
      else if sqrtFn (corrDenomSq x y) = 0 then 0
      else corrNumerator x y / sqrtFn (corrDenomSq x y) := rfl
  have hconst : (∀ v ∈ x, v = x.headD 0) → corrDenomSq x y = 0 := by
    intro hc
    have hs : jsSum x = x.length * x.headD 0 := jsSum_allEq x (x.headD 0) hc
    have hs2 : x.foldl (fun s xi => s + xi * xi) 0 = x.length * (x.headD 0 * x.headD 0) :=
      foldl_sq_allEq x (x.headD 0) hc
    simp only [corrDenomSq, hs, hs2]
    have hz : (x.length : ℚ) * ((x.length : ℚ) * (x.headD 0 * x.headD 0))
        - (x.length : ℚ) * x.headD 0 * ((x.length : ℚ) * x.headD 0) = 0 := by ring
    rw [hz, zero_mul]
  refine ⟨?_, ?_, ?_, ?_, ?_⟩
  · intro h
    rw [hcc, if_pos (Or.inr h)]
  · intro h
    rw [hcc, if_pos (Or.inl h)]
  · intro h
    rw [hcc]
    split_ifs with h1 h2
    · rfl
    · rfl
  · intro hc hz
    rw [hcc]
    split_ifs with h1 h2
    · rfl
    · rfl
    · exact absurd (by rw [hconst hc, hz]) h2
  · intro hlen hne hden
    have hguard : ¬(x.length ≠ y.length ∨ x.length = 0) := by
      push_neg
      exact ⟨hlen, hne⟩
    rw [hcc, if_neg hguard, if_neg hden]

/-- Claim C5 witness: the theorem applied at a constant `x = [2, 2]` with
`y = [1, 3]` and the interpretation `sqrtFn = id` (which fixes 0). -/
theorem calculateCorrelation_spec_witness :
    (∀ v ∈ ([2, 2] : List ℚ), v = ([2, 2] : List ℚ).headD 0) ∧
      calculateCorrelation (fun q => q) [2, 2] [1, 3] = 0 :=
  ⟨by norm_num,
   (calculateCorrelation_spec (fun q => q) [2, 2] [1, 3]).2.2.2.1 (by norm_num) rfl⟩

/-! ## Claims C7 and C4 — per-column insight rules -/

theorem mem_generateInsights_of_numeric (sqrtFn : ℚ → ℚ) (data : List AnRow)
    (columnInfo : List ColumnInfo) (statistics : List (String × ColumnStats))
    (col : ColumnInfo) (i : Insight) (hmem : col ∈ columnInfo)
    (htype : col.type = ColType.number)
    (hi : i ∈ numericColInsights data statistics col) :
    i ∈ generateInsights sqrtFn data columnInfo statistics := by
  simp only [generateInsights]
  exact List.mem_cons_of_mem _ (List.mem_append_left _ (List.mem_append_left _
    (List.mem_flatMap.2 ⟨col, List.mem_filter.2 ⟨hmem, by simp [htype]⟩, hi⟩)))

/-- Claim C7, counterexample: a constant numeric column (`stdDev = 0`,
`mean = 5`) has CV `= 0 < 5`, so the claim promises a low-severity
"low variability" insight; the source guard `if (stats.stdDev && stats.mean)`
treats the zero `stdDev` as falsy and skips the rule, so only the summary
insight is produced. -/
theorem cvInsight_constant_column_counterexample :
    generateInsights (fun q => q) (List.replicate 5 [("k", CellVal.num 5)])
        [⟨"k", ColType.number⟩] [("k", ⟨5, 0, 1, none, none, some 5, none, some 0⟩)] =
      [⟨InsightType.summary, "Intelligent Dataset Analysis", Severity.low⟩] ∧
      Insight.mk InsightType.trend "Low Variability in k" Severity.low ∉
        generateInsights (fun q => q) (List.replicate 5 [("k", CellVal.num 5)])
          [⟨"k", ColType.number⟩] [("k", ⟨5, 0, 1, none, none, some 5, none, some 0⟩)] := by
  apply of_decide_eq_true
  with_unfolding_all rfl

/-- Claim C7 (amended): for a numeric column whose stats entry has a
truthy (present and non-zero) `stdDev` and `mean` and at least one numeric
value in the data, `generateInsights` emits the high-severity "extreme
variability" insight when `CV = 100·stdDev/mean > 75` and the low-severity
"low variability" insight when `CV < 5`; the rule emits at most one
insight per column, and a constant column (`stdDev = 0`, falsy) gets
neither. -/
theorem cvInsight_spec (sqrtFn : ℚ → ℚ) (data : List AnRow)
    (columnInfo : List ColumnInfo) (statistics : List (String × ColumnStats))
    (col : ColumnInfo) (stats : ColumnStats)
    (hmem : col ∈ columnInfo) (htype : col.type = ColType.number)
    (hstats : List.lookup col.name statistics = some stats)
    (hvals : 0 < (numericValues data col.name).length)
    (hsd : jsTruthy stats.stdDev) (hmean : jsTruthy stats.mean) :
    ((stats.stdDev.getD 0 / stats.mean.getD 0) * 100 > 75 →
      Insight.mk .trend ("Extreme Variability in " ++ col.name) .high ∈
        generateInsights sqrtFn data columnInfo statistics) ∧
    ((stats.stdDev.getD 0 / stats.mean.getD 0) * 100 < 5 →
      Insight.mk .trend ("Low Variability in " ++ col.name) .low ∈
        generateInsights sqrtFn data columnInfo statistics) ∧
    (∀ s : ColumnStats, (cvInsights col.name s).length ≤ 1) ∧
    (∀ s : ColumnStats, s.stdDev = some 0 → cvInsights col.name s = []) := by
  have hin : ∀ i : Insight, i ∈ cvInsights col.name stats →
      i ∈ generateInsights sqrtFn data columnInfo statistics := by
    intro i hi
    refine mem_generateInsights_of_numeric sqrtFn data columnInfo statistics col i hmem htype ?_
    simp only [numericColInsights, hstats]
    exact List.mem_append_left _ (List.mem_append_left _
      (by rw [if_pos hvals]; exact List.mem_append_right _ hi))
  refine ⟨?_, ?_, ?_, ?_⟩
  · intro hgt
    apply hin
    simp only [cvInsights, hsd, hmean, Bool.and_self, if_true, if_pos hgt]
    exact List.mem_singleton.2 rfl
  · intro hlt
    apply hin
    have hngt : ¬((stats.stdDev.getD 0 / stats.mean.getD 0) * 100 > 75) := by linarith
    simp only [cvInsights, hsd, hmean, Bool.and_self, if_true, if_neg hngt, if_pos hlt]
    exact List.mem_singleton.2 rfl
  · intro s
    simp only [cvInsights]
    split_ifs <;> simp
  · intro s hz
    simp [cvInsights, hz, jsTruthy]

/-- Claim C7 witness: the low-variability branch at a concrete column with
`stdDev = 3`, `mean = 100` (CV = 3). -/
theorem cvInsight_spec_witness :
    (((3 : ℚ) / 100) * 100 < 5) ∧
      Insight.mk .trend ("Low Variability in " ++ "k") .low ∈
        generateInsights (fun q => q) [[("k", CellVal.num 1)]]
          [⟨"k", ColType.number⟩] [("k", ⟨1, 0, 1, none, none, some 100, none, some 3⟩)] := by
  refine ⟨by norm_num, ?_⟩
  have h := (cvInsight_spec (fun q => q) [[("k", CellVal.num 1)]]
    [⟨"k", ColType.number⟩] [("k", ⟨1, 0, 1, none, none, some 100, none, some 3⟩)]
    ⟨"k", ColType.number⟩ ⟨1, 0, 1, none, none, some 100, none, some 3⟩
    (by simp) rfl (by apply of_decide_eq_true; with_unfolding_all rfl)
    (by apply of_decide_eq_true; with_unfolding_all rfl)
    (by apply of_decide_eq_true; with_unfolding_all rfl)
    (by apply of_decide_eq_true; with_unfolding_all rfl)).2.1
  exact h (by norm_num)

/-- Claim C4, counterexample: a string column with 3 of 5 values missing
(`nullCount = 3 > 1 = 20%·5`) gets no missing-data insight, because the
`nullCount` rule sits inside the numeric-columns loop; only the summary
insight is produced. -/
theorem missingDataInsight_string_counterexample :
    ((3 : ℚ) > (5 : ℚ) * 0.2) ∧
      generateInsights (fun q => q) (List.replicate 5 [("c", CellVal.null)])
          [⟨"c", ColType.string⟩] [("c", ⟨5, 3, 2, none, none, none, none, none⟩)] =
        [⟨InsightType.summary, "Intelligent Dataset Analysis", Severity.high⟩] ∧
      Insight.mk InsightType.outlier "Significant Missing Data in c" Severity.high ∉
        generateInsights (fun q => q) (List.replicate 5 [("c", CellVal.null)])
          [⟨"c", ColType.string⟩] [("c", ⟨5, 3, 2, none, none, none, none, none⟩)] := by
  apply of_decide_eq_true
  with_unfolding_all rfl

/-- Claim C4 (amended): for a numeric column whose stats entry has
`nullCount > 20%` of the row count, `generateInsights` emits the
high-severity missing-data insight; the rule lives inside the
numeric-columns loop, so it applies only to columns of inferred type
`number`, not to every column type. -/
theorem missingDataInsight_spec (sqrtFn : ℚ → ℚ) (data : List AnRow)
    (columnInfo : List ColumnInfo) (statistics : List (String × ColumnStats))
    (col : ColumnInfo) (stats : ColumnStats)
    (hmem : col ∈ columnInfo) (htype : col.type = ColType.number)
    (hstats : List.lookup col.name statistics = some stats)
    (hnull : (stats.nullCount : ℚ) > (data.length : ℚ) * 0.2) :
    Insight.mk .outlier ("Significant Missing Data in " ++ col.name) .high ∈
      generateInsights sqrtFn data columnInfo statistics := by
  refine mem_generateInsights_of_numeric sqrtFn data columnInfo statistics col _ hmem htype ?_
  simp only [numericColInsights, hstats]
  refine List.mem_append_left _ (List.mem_append_right _ ?_)
  simp only [missingDataInsights, if_pos hnull]
  exact List.mem_singleton.2 rfl

/-- Claim C4 witness: the theorem at a one-column dataset with 3 of 5
values missing in a numeric column. -/
theorem missingDataInsight_spec_witness :
    ((3 : ℕ) : ℚ) > ((5 : ℕ) : ℚ) * 0.2 ∧
      Insight.mk .outlier ("Significant Missing Data in " ++ "k") .high ∈
        generateInsights (fun q => q) (List.replicate 5 [("k", CellVal.num 5)])
          [⟨"k", ColType.number⟩] [("k", ⟨5, 3, 1, none, none, none, none, none⟩)] := by
  refine ⟨by norm_num, ?_⟩
  exact missingDataInsight_spec (fun q => q) (List.replicate 5 [("k", CellVal.num 5)])
    [⟨"k", ColType.number⟩] [("k", ⟨5, 3, 1, none, none, none, none, none⟩)]
    ⟨"k", ColType.number⟩ ⟨5, 3, 1, none, none, none, none, none⟩
    (by simp) rfl rfl
    (by apply of_decide_eq_true; with_unfolding_all rfl)

/-! ## Claims C1 and C10 — seeded shuffle and split -/

theorem getSet_cons_perm (xs : List α) (m : ℕ) (x : α) (h : m < xs.length) :
    List.Perm (xs.get ⟨m, h⟩ :: xs.set m x) (x :: xs) := by
  induction xs generalizing m with
  | nil => simp at h
  | cons y ys ih =>
    cases m with
    | zero => exact List.Perm.swap x y ys
    | succ m =>
      have hm : m < ys.length := by simpa using h
      exact ((List.Perm.swap y (ys.get ⟨m, hm⟩) (ys.set m x)).trans
        ((ih m hm).cons y)).trans (List.Perm.swap x y ys)

theorem set_set_swap_perm (l : List α) (i j : ℕ) (hi : i < l.length) (hj : j < l.length) :
    List.Perm ((l.set i (l.get ⟨j, hj⟩)).set j (l.get ⟨i, hi⟩)) l := by
  induction l generalizing i j with
  | nil => simp at hi
  | cons a t ih =>
    cases i with
    | zero =>
      cases j with
      | zero => simp
      | succ m =>
        have hm : m < t.length := by simpa using hj
        simpa using getSet_cons_perm t m a hm
    | succ k =>
      cases j with
      | zero =>
        have hk : k < t.length := by simpa using hi
        simpa using getSet_cons_perm t k a hk
      | succ m =>
        have hk : k < t.length := by simpa using hi
        have hm : m < t.length := by simpa using hj
        simpa using (ih k m hk hm).cons a

theorem jsSwap_length (l : List (Option β)) (i j : ℤ) : (jsSwap l i j).length = l.length := by
  simp only [jsSwap, jsArrWrite]
  split_ifs <;> simp

theorem jsSwap_eq_swap (l : List (Option β)) (i j : ℤ) (hi0 : 0 ≤ i) (hi : i.toNat < l.length)
    (hj0 : 0 ≤ j) (hj : j.toNat < l.length) :
    jsSwap l i j = (l.set i.toNat (l.get ⟨j.toNat, hj⟩)).set j.toNat (l.get ⟨i.toNat, hi⟩) := by
  simp only [jsSwap, jsArrRead, jsArrWrite]
  rw [dif_pos (show 0 ≤ j ∧ j.toNat < l.length from ⟨hj0, hj⟩),
    dif_pos (show 0 ≤ i ∧ i.toNat < l.length from ⟨hi0, hi⟩),
    if_pos (show 0 ≤ i ∧ i.toNat < l.length from ⟨hi0, hi⟩)]
  have hlen : j.toNat < (l.set i.toNat (l.get ⟨j.toNat, hj⟩)).length := by
    rw [List.length_set]
    exact hj
  rw [if_pos (show 0 ≤ j ∧ j.toNat < (l.set i.toNat (l.get ⟨j.toNat, hj⟩)).length
    from ⟨hj0, hlen⟩)]

theorem jsSwap_perm (l : List (Option β)) (i j : ℤ) (hi0 : 0 ≤ i) (hi : i.toNat < l.length)
    (hj0 : 0 ≤ j) (hj : j.toNat < l.length) : List.Perm (jsSwap l i j) l := by
  rw [jsSwap_eq_swap l i j hi0 hi hj0 hj]
  exact set_set_swap_perm l i.toNat j.toNat hi hj

theorem lcg_nonneg {s : ℤ} (hs : 0 ≤ s) : 0 ≤ lcg s :=
  Int.tmod_nonneg _ (add_nonneg (mul_nonneg hs (by norm_num)) (by norm_num))

theorem lcg_lt (s : ℤ) : lcg s < 233280 :=
  Int.tmod_lt_of_pos _ (by norm_num)

theorem shuffleGo_length (k : ℕ) (l : List (Option β)) (s : ℤ) :
    (shuffleGo k l s).1.length = l.length := by
  induction k generalizing l s with
  | zero => rfl
  | succ i ih =>
    simp only [shuffleGo]
    rw [ih, jsSwap_length]

theorem shuffleGo_perm (k : ℕ) (l : List (Option β)) (s : ℤ) (hs : 0 ≤ s)
    (hk : k < l.length) : List.Perm (shuffleGo k l s).1 l := by
  induction k generalizing l s with
  | zero => exact List.Perm.refl l
  | succ i ih =>
    simp only [shuffleGo]
    have hs' : 0 ≤ lcg s := lcg_nonneg hs
    have h0 : (0 : ℚ) ≤ (lcg s : ℚ) / 233280 :=
      div_nonneg (by exact_mod_cast hs') (by norm_num)
    have h1 : ((lcg s : ℚ) / 233280) < 1 := by
      rw [div_lt_one (by norm_num)]
      exact_mod_cast lcg_lt s
    have hj0 : 0 ≤ ⌊((lcg s : ℚ) / 233280) * ((i : ℚ) + 2)⌋ :=
      Int.floor_nonneg.2 (mul_nonneg h0 (by positivity))
    have hjlt : ⌊((lcg s : ℚ) / 233280) * ((i : ℚ) + 2)⌋ < (i : ℤ) + 2 := by
      apply Int.floor_lt.2
      push_cast
      have h2 : (0 : ℚ) < (i : ℚ) + 2 := by positivity
      calc ((lcg s : ℚ) / 233280) * ((i : ℚ) + 2) < 1 * ((i : ℚ) + 2) :=
            mul_lt_mul_of_pos_right h1 h2
        _ = (i : ℚ) + 2 := one_mul _
    have hswl : (jsSwap l ((i : ℤ) + 1) ⌊((lcg s : ℚ) / 233280) * ((i : ℚ) + 2)⌋).length
        = l.length := jsSwap_length l _ _
    refine (ih (jsSwap l ((i : ℤ) + 1) _) (lcg s) hs' (by omega)).trans
      (jsSwap_perm l _ _ (by omega) (by omega) hj0 (by omega))

theorem shuffle_length (array : List (Option β)) (seed : Option ℤ) (now : ℤ) :
    (shuffle array seed now).length = array.length :=
  shuffleGo_length _ _ _

theorem shuffle_perm (array : List (Option β)) (seed : Option ℤ) (now : ℤ)
    (hs : 0 ≤ effSeed seed now) : List.Perm (shuffle array seed now) array := by
  unfold shuffle
  cases array with
  | nil => exact List.Perm.refl _
  | cons a t => exact shuffleGo_perm _ _ _ hs (by simp)

/-- Claim C1, counterexample: a supplied seed of `0` is falsy, so
`seed || Date.now()` replaces it with the clock value, and two invocations
of `splitData` with identical `(data, testSize, seed = 0)` but different
clock readings produce different partitions. -/
theorem splitData_zero_seed_counterexample :
    splitData ([1, 2] : List ℕ) (1/2) (some 0) 1 ≠
      splitData ([1, 2] : List ℕ) (1/2) (some 0) 10 := by
  apply of_decide_eq_true
  with_unfolding_all rfl

/-- Claim C1 (amended): for every dataset, testSize and *nonzero* supplied
integer seed, two invocations of `splitData` with identical
`(data, testSize, seed)` produce identical test and train partitions with
identical row ordering, independent of the clock (a supplied seed of 0 is
falsy and falls back to the clock, so it is excluded); the split runs the
LCG-driven Fisher–Yates `shuffle` from that seed and takes the first
`⌊n · testSize⌋` shuffled rows as the test partition, the rest as the
train partition. -/
theorem splitData_deterministic_spec {β : Type} (data : List β) (ts : ℚ) (s : ℤ)
    (n₁ n₂ : ℤ) (hs : s ≠ 0) :
    splitData data ts (some s) n₁ = splitData data ts (some s) n₂ ∧
    (splitData data ts (some s) n₁).testData =
      (shuffleGo (data.length - 1) (data.map some) s).1.take
        (⌊(data.length : ℚ) * ts⌋).toNat ∧
    (splitData data ts (some s) n₁).trainData =
      (shuffleGo (data.length - 1) (data.map some) s).1.drop
        (⌊(data.length : ℚ) * ts⌋).toNat := by
  have he : ∀ n : ℤ, effSeed (some s) n = s := fun n => by simp [effSeed, hs]
  refine ⟨?_, ?_, ?_⟩
  · simp [splitData, shuffle, he]
  · simp [splitData, shuffle, he]
  · simp [splitData, shuffle, he]

/-- Claim C1 witness: determinism at `data = [1,2,3]`, `testSize = 1/3`,
`seed = 42`, clock readings 0 and 5. -/
theorem splitData_deterministic_spec_witness :
    (42 : ℤ) ≠ 0 ∧
      splitData ([1, 2, 3] : List ℕ) (1/3) (some 42) 0 =
        splitData ([1, 2, 3] : List ℕ) (1/3) (some 42) 5 :=
  ⟨by norm_num, (splitData_deterministic_spec [1, 2, 3] (1/3) 42 0 5 (by norm_num)).1⟩

/-- Claim C10, counterexample: with `testSize = 2` and seed `−6` the LCG
value is negative, the drawn swap index is `−1`, and the destructuring
swap writes `undefined` into the array: row `1` is lost (the test
partition is `[some 0, none]`), so test ++ train is not a permutation of
the input rows, and the test partition size is `2`, not
`⌊n·testSize⌋ = 4`. -/
theorem splitData_partition_counterexample :
    ¬ List.Perm ((splitData ([0, 1] : List ℕ) 2 (some (-6)) 0).testData ++
        (splitData ([0, 1] : List ℕ) 2 (some (-6)) 0).trainData)
      (([0, 1] : List ℕ).map some) ∧
      (splitData ([0, 1] : List ℕ) 2 (some (-6)) 0).testData.length ≠
        (⌊((([0, 1] : List ℕ).length : ℚ)) * 2⌋).toNat := by
  apply of_decide_eq_true
  with_unfolding_all rfl

/-- Claim C10 (amended): for every dataset, every `testSize ∈ (0,1)` and
every seed whose effective value (`seed || now`) is nonnegative, the test
partition followed by the train partition is a permutation of the input
rows — every row appears exactly once — and the partition sizes are
exactly `⌊n·testSize⌋` and `n − ⌊n·testSize⌋`.  (Negative seeds can push
the LCG output negative, producing a negative swap index that destroys a
row; `testSize ≥ 1` breaks the size formula.) -/
theorem splitData_partition_spec {β : Type} (data : List β) (ts : ℚ) (seed : Option ℤ)
    (now : ℤ) (hseed : 0 ≤ effSeed seed now) (h0 : 0 < ts) (h1 : ts < 1) :
    List.Perm ((splitData data ts seed now).testData ++ (splitData data ts seed now).trainData)
      (data.map some) ∧
    (splitData data ts seed now).testData.length = (⌊(data.length : ℚ) * ts⌋).toNat ∧
    (splitData data ts seed now).trainData.length =
      data.length - (⌊(data.length : ℚ) * ts⌋).toNat := by
  have hlen : (shuffle (data.map some) seed now).length = data.length := by
    rw [shuffle_length, List.length_map]
  have hperm : List.Perm (shuffle (data.map some) seed now) (data.map some) :=
    shuffle_perm _ _ _ hseed
  have htest : (splitData data ts seed now).testData =
      (shuffle (data.map some) seed now).take (⌊(data.length : ℚ) * ts⌋).toNat := rfl
  have htrain : (splitData data ts seed now).trainData =
      (shuffle (data.map some) seed now).drop (⌊(data.length : ℚ) * ts⌋).toNat := rfl
  have htc : (⌊(data.length : ℚ) * ts⌋).toNat ≤ data.length := by
    have hle : ⌊(data.length : ℚ) * ts⌋ ≤ (data.length : ℤ) := by
      have h2 : (data.length : ℚ) * ts ≤ (data.length : ℚ) := by
        calc (data.length : ℚ) * ts ≤ (data.length : ℚ) * 1 :=
              mul_le_mul_of_nonneg_left (le_of_lt h1) (by positivity)
          _ = (data.length : ℚ) := mul_one _
      have h3 := (Int.floor_le ((data.length : ℚ) * ts)).trans h2
      exact_mod_cast Int.floor_le_floor h2 |>.trans_eq (by simp)
    omega
  refine ⟨?_, ?_, ?_⟩
  · rw [htest, htrain, List.take_append_drop]
    exact hperm
  · rw [htest, List.length_take, hlen]
    omega
  · rw [htrain, List.length_drop, hlen]

/-- Claim C10 witness: the theorem at `data = [1,2,3]`, `testSize = 1/3`,
seed `7`. -/
theorem splitData_partition_spec_witness :
    (0 : ℤ) ≤ effSeed (some 7) 0 ∧
      List.Perm ((splitData ([1, 2, 3] : List ℕ) (1/3) (some 7) 0).testData ++
          (splitData ([1, 2, 3] : List ℕ) (1/3) (some 7) 0).trainData)
        (([1, 2, 3] : List ℕ).map some) :=
  ⟨by norm_num [effSeed],
   (splitData_partition_spec [1, 2, 3] (1/3) (some 7) 0 (by norm_num [effSeed])
     (by norm_num) (by norm_num)).1⟩

/-! ## Claim C8 — prediction lengths -/

theorem splitData_testData_length {β : Type} (data : List β) (ts : ℚ) (seed : Option ℤ)
    (now : ℤ) (h1 : ts < 1) :
    (splitData data ts seed now).testData.length = (⌊(data.length : ℚ) * ts⌋).toNat := by
  have hlen : (shuffle (data.map some) seed now).length = data.length := by
    rw [shuffle_length, List.length_map]
  have htc : (⌊(data.length : ℚ) * ts⌋).toNat ≤ data.length := by
    have h2 : (data.length : ℚ) * ts ≤ (data.length : ℚ) := by
      calc (data.length : ℚ) * ts ≤ (data.length : ℚ) * 1 :=
            mul_le_mul_of_nonneg_left (le_of_lt h1) (by positivity)
        _ = (data.length : ℚ) := mul_one _
    have h3 : ⌊(data.length : ℚ) * ts⌋ ≤ (data.length : ℤ) := by
      calc ⌊(data.length : ℚ) * ts⌋ ≤ ⌊(data.length : ℚ)⌋ := Int.floor_le_floor h2
        _ = (data.length : ℤ) := Int.floor_natCast _
    omega
  have htest : (splitData data ts seed now).testData =
      (shuffle (data.map some) seed now).take (⌊(data.length : ℚ) * ts⌋).toNat := rfl
  rw [htest, List.length_take, hlen]
  omega

theorem trainLinearRegression_shape (ops : MathOps) (Xtr : List (List ℚ)) (ytr : List ℚ)
    (Xte : List (List ℚ)) (yte : List ℚ) (nms : List String) :
    (trainLinearRegression ops Xtr ytr Xte yte nms).1.predictions.length = Xte.length ∧
    (trainLinearRegression ops Xtr ytr Xte yte nms).1.actualValues = some yte := by
  refine ⟨?_, rfl⟩
  simp only [trainLinearRegression, List.length_map]

theorem trainLogisticRegression_shape (ops : MathOps) (Xtr : List (List ℚ)) (ytr : List ℚ)
    (Xte : List (List ℚ)) (yte : List ℚ) (nms : List String) :
    (trainLogisticRegression ops Xtr ytr Xte yte nms).1.predictions.length = Xte.length ∧
    (trainLogisticRegression ops Xtr ytr Xte yte nms).1.actualValues = some yte := by
  refine ⟨?_, rfl⟩
  simp only [trainLogisticRegression, List.length_map]

theorem trainDecisionTree_shape (ops : MathOps) (Xtr : List (List ℚ)) (ytr : List ℚ)
    (Xte : List (List ℚ)) (yte : List ℚ) (nms : List String) :
    (trainDecisionTree ops Xtr ytr Xte yte nms).1.predictions.length = Xte.length ∧
    (trainDecisionTree ops Xtr ytr Xte yte nms).1.actualValues = some yte := by
  refine ⟨?_, rfl⟩
  simp only [trainDecisionTree, List.length_map]

theorem trainRandomForest_shape (ops : MathOps) (Xtr : List (List ℚ)) (ytr : List ℚ)
    (Xte : List (List ℚ)) (yte : List ℚ) (nms : List String) :
    (trainRandomForest ops Xtr ytr Xte yte nms).1.predictions.length = Xte.length ∧
    (trainRandomForest ops Xtr ytr Xte yte nms).1.actualValues = some yte := by
  refine ⟨?_, rfl⟩
  simp only [trainRandomForest, List.length_map]

theorem trainGradientBoosting_shape (ops : MathOps) (Xtr : List (List ℚ)) (ytr : List ℚ)
    (Xte : List (List ℚ)) (yte : List ℚ) (nms : List String) :
    (trainGradientBoosting ops Xtr ytr Xte yte nms).1.predictions.length = Xte.length ∧
    (trainGradientBoosting ops Xtr ytr Xte yte nms).1.actualValues = some yte := by
  refine ⟨?_, rfl⟩
  simp only [trainGradientBoosting, List.length_map]

set_option maxRecDepth 4096 in
theorem trainXGBoost_shape (ops : MathOps) (Xtr : List (List ℚ)) (ytr : List ℚ)
    (Xte : List (List ℚ)) (yte : List ℚ) (nms : List String) :
    (trainXGBoost ops Xtr ytr Xte yte nms).1.predictions.length = Xte.length ∧
    (trainXGBoost ops Xtr ytr Xte yte nms).1.actualValues = some yte := by
  refine ⟨?_, rfl⟩
  simp only [trainXGBoost, List.length_map]

theorem trainSVM_shape (ops : MathOps) (Xtr : List (List ℚ)) (ytr : List ℚ)
    (Xte : List (List ℚ)) (yte : List ℚ) (nms : List String) :
    (trainSVM ops Xtr ytr Xte yte nms).1.predictions.length = Xte.length ∧
    (trainSVM ops Xtr ytr Xte yte nms).1.actualValues = some yte := by
  refine ⟨?_, rfl⟩
  simp only [trainSVM, List.length_map]

theorem trainKNN_shape (ops : MathOps) (Xtr : List (List ℚ)) (ytr : List ℚ)
    (Xte : List (List ℚ)) (yte : List ℚ) (nms : List String) :
    (trainKNN ops Xtr ytr Xte yte nms).1.predictions.length = Xte.length ∧
    (trainKNN ops Xtr ytr Xte yte nms).1.actualValues = some yte := by
  refine ⟨?_, rfl⟩
  simp only [trainKNN, List.length_map]

theorem trainNaiveBayes_shape (ops : MathOps) (Xtr : List (List ℚ)) (ytr : List ℚ)
    (Xte : List (List ℚ)) (yte : List ℚ) (nms : List String) :
    (trainNaiveBayes ops Xtr ytr Xte yte nms).1.predictions.length = Xte.length ∧
    (trainNaiveBayes ops Xtr ytr Xte yte nms).1.actualValues = some yte := by
  refine ⟨?_, rfl⟩
  simp only [trainNaiveBayes, List.length_map]

theorem trainNeuralNetwork_shape (ops : MathOps) (Xtr : List (List ℚ)) (ytr : List ℚ)
    (Xte : List (List ℚ)) (yte : List ℚ) (nms : List String) :
    (trainNeuralNetwork ops Xtr ytr Xte yte nms).1.predictions.length = Xte.length ∧
    (trainNeuralNetwork ops Xtr ytr Xte yte nms).1.actualValues = some yte := by
  refine ⟨?_, rfl⟩
  simp only [trainNeuralNetwork, List.length_map]

theorem trainKMeans_shape (ops : MathOps) (Xtr : List (List ℚ))
    (Xte : List (List ℚ)) (nms : List String) :
    (trainKMeans ops Xtr Xte nms).1.predictions.length = Xte.length ∧
    (trainKMeans ops Xtr Xte nms).1.actualValues = none := by
  refine ⟨?_, rfl⟩
  simp only [trainKMeans, List.length_map]

theorem trainTime_update_predictions (r : TrainingResult) (e : ℚ) :
    ({ r with trainTime := e }).predictions = r.predictions := rfl

theorem trainTime_update_actualValues (r : TrainingResult) (e : ℚ) :
    ({ r with trainTime := e }).actualValues = r.actualValues := rfl

set_option maxRecDepth 16384 in
theorem trainModel_result_shape (ops : MathOps) (data : List DRow) (config : ModelConfig)
    (now : ℤ) (elapsed : ℚ) :
    (trainModel ops data config now elapsed).1.predictions.length =
      (splitData data config.testSize config.randomSeed now).testData.length ∧
    ∀ av, (trainModel ops data config now elapsed).1.actualValues = some av →
      av.length = (splitData data config.testSize config.randomSeed now).testData.length := by
  obtain ⟨mt, tgt, feats, ts, seed⟩ := config
  cases mt with
  | linear_regression =>
    have h := trainLinearRegression_shape ops
      ((splitData data ts seed now).trainData.map fun row => feats.map (rowGet row))
      ((splitData data ts seed now).trainData.map fun row => rowGet row tgt)
      ((splitData data ts seed now).testData.map fun row => feats.map (rowGet row))
      ((splitData data ts seed now).testData.map fun row => rowGet row tgt)
      feats
    have hp : (trainModel ops data ⟨.linear_regression, tgt, feats, ts, seed⟩ now elapsed).1.predictions
        = (trainLinearRegression ops
          ((splitData data ts seed now).trainData.map fun row => feats.map (rowGet row))
          ((splitData data ts seed now).trainData.map fun row => rowGet row tgt)
          ((splitData data ts seed now).testData.map fun row => feats.map (rowGet row))
          ((splitData data ts seed now).testData.map fun row => rowGet row tgt)
          feats).1.predictions := rfl
    have ha : (trainModel ops data ⟨.linear_regression, tgt, feats, ts, seed⟩ now elapsed).1.actualValues
        = (trainLinearRegression ops
          ((splitData data ts seed now).trainData.map fun row => feats.map (rowGet row))
          ((splitData data ts seed now).trainData.map fun row => rowGet row tgt)
          ((splitData data ts seed now).testData.map fun row => feats.map (rowGet row))
          ((splitData data ts seed now).testData.map fun row => rowGet row tgt)
          feats).1.actualValues := rfl
    refine ⟨?_, fun av hav => ?_⟩
    · rw [hp, h.1]
      exact List.length_map _ _
    · rw [ha, h.2] at hav
      cases hav
      exact List.length_map _ _
  | logistic_regression =>
    have h := trainLogisticRegression_shape ops
      ((splitData data ts seed now).trainData.map fun row => feats.map (rowGet row))
      ((splitData data ts seed now).trainData.map fun row => rowGet row tgt)
      ((splitData data ts seed now).testData.map fun row => feats.map (rowGet row))
      ((splitData data ts seed now).testData.map fun row => rowGet row tgt)
      feats
    have hp : (trainModel ops data ⟨.logistic_regression, tgt, feats, ts, seed⟩ now elapsed).1.predictions
        = (trainLogisticRegression ops
          ((splitData data ts seed now).trainData.map fun row => feats.map (rowGet row))
          ((splitData data ts seed now).trainData.map fun row => rowGet row tgt)
          ((splitData data ts seed now).testData.map fun row => feats.map (rowGet row))
          ((splitData data ts seed now).testData.map fun row => rowGet row tgt)
          feats).1.predictions := rfl
    have ha : (trainModel ops data ⟨.logistic_regression, tgt, feats, ts, seed⟩ now elapsed).1.actualValues
        = (trainLogisticRegression ops
          ((splitData data ts seed now).trainData.map fun row => feats.map (rowGet row))
          ((splitData data ts seed now).trainData.map fun row => rowGet row tgt)
          ((splitData data ts seed now).testData.map fun row => feats.map (rowGet row))
          ((splitData data ts seed now).testData.map fun row => rowGet row tgt)
          feats).1.actualValues := rfl
    refine ⟨?_, fun av hav => ?_⟩
    · rw [hp, h.1]
      exact List.length_map _ _
    · rw [ha, h.2] at hav
      cases hav
      exact List.length_map _ _
  | decision_tree =>
    have h := trainDecisionTree_shape ops
      ((splitData data ts seed now).trainData.map fun row => feats.map (rowGet row))
      ((splitData data ts seed now).trainData.map fun row => rowGet row tgt)
      ((splitData data ts seed now).testData.map fun row => feats.map (rowGet row))
      ((splitData data ts seed now).testData.map fun row => rowGet row tgt)
      feats
    have hp : (trainModel ops data ⟨.decision_tree, tgt, feats, ts, seed⟩ now elapsed).1.predictions
        = (trainDecisionTree ops
          ((splitData data ts seed now).trainData.map fun row => feats.map (rowGet row))
          ((splitData data ts seed now).trainData.map fun row => rowGet row tgt)
          ((splitData data ts seed now).testData.map fun row => feats.map (rowGet row))
          ((splitData data ts seed now).testData.map fun row => rowGet row tgt)
          feats).1.predictions := rfl
    have ha : (trainModel ops data ⟨.decision_tree, tgt, feats, ts, seed⟩ now elapsed).1.actualValues
        = (trainDecisionTree ops
          ((splitData data ts seed now).trainData.map fun row => feats.map (rowGet row))
          ((splitData data ts seed now).trainData.map fun row => rowGet row tgt)
          ((splitData data ts seed now).testData.map fun row => feats.map (rowGet row))
          ((splitData data ts seed now).testData.map fun row => rowGet row tgt)
          feats).1.actualValues := rfl
    refine ⟨?_, fun av hav => ?_⟩
    · rw [hp, h.1]
      exact List.length_map _ _
    · rw [ha, h.2] at hav
      cases hav
      exact List.length_map _ _
  | random_forest =>
    have h := trainRandomForest_shape ops
      ((splitData data ts seed now).trainData.map fun row => feats.map (rowGet row))
      ((splitData data ts seed now).trainData.map fun row => rowGet row tgt)
      ((splitData data ts seed now).testData.map fun row => feats.map (rowGet row))
      ((splitData data ts seed now).testData.map fun row => rowGet row tgt)
      feats
    have hp : (trainModel ops data ⟨.random_forest, tgt, feats, ts, seed⟩ now elapsed).1.predictions
        = (trainRandomForest ops
          ((splitData data ts seed now).trainData.map fun row => feats.map (rowGet row))
          ((splitData data ts seed now).trainData.map fun row => rowGet row tgt)
          ((splitData data ts seed now).testData.map fun row => feats.map (rowGet row))
          ((splitData data ts seed now).testData.map fun row => rowGet row tgt)
          feats).1.predictions := rfl
    have ha : (trainModel ops data ⟨.random_forest, tgt, feats, ts, seed⟩ now elapsed).1.actualValues
        = (trainRandomForest ops
          ((splitData data ts seed now).trainData.map fun row => feats.map (rowGet row))
          ((splitData data ts seed now).trainData.map fun row => rowGet row tgt)
          ((splitData data ts seed now).testData.map fun row => feats.map (rowGet row))
          ((splitData data ts seed now).testData.map fun row => rowGet row tgt)
          feats).1.actualValues := rfl
    refine ⟨?_, fun av hav => ?_⟩
    · rw [hp, h.1]
      exact List.length_map _ _
    · rw [ha, h.2] at hav
      cases hav
      exact List.length_map _ _
  | gradient_boosting =>
    have h := trainGradientBoosting_shape ops
      ((splitData data ts seed now).trainData.map fun row => feats.map (rowGet row))
      ((splitData data ts seed now).trainData.map fun row => rowGet row tgt)
      ((splitData data ts seed now).testData.map fun row => feats.map (rowGet row))
      ((splitData data ts seed now).testData.map fun row => rowGet row tgt)
      feats
    have hp : (trainModel ops data ⟨.gradient_boosting, tgt, feats, ts, seed⟩ now elapsed).1.predictions
        = (trainGradientBoosting ops
          ((splitData data ts seed now).trainData.map fun row => feats.map (rowGet row))
          ((splitData data ts seed now).trainData.map fun row => rowGet row tgt)
          ((splitData data ts seed now).testData.map fun row => feats.map (rowGet row))
          ((splitData data ts seed now).testData.map fun row => rowGet row tgt)
          feats).1.predictions := rfl
    have ha : (trainModel ops data ⟨.gradient_boosting, tgt, feats, ts, seed⟩ now elapsed).1.actualValues
        = (trainGradientBoosting ops
          ((splitData data ts seed now).trainData.map fun row => feats.map (rowGet row))
          ((splitData data ts seed now).trainData.map fun row => rowGet row tgt)
          ((splitData data ts seed now).testData.map fun row => feats.map (rowGet row))
          ((splitData data ts seed now).testData.map fun row => rowGet row tgt)
          feats).1.actualValues := rfl
    refine ⟨?_, fun av hav => ?_⟩
    · rw [hp, h.1]
      exact List.length_map _ _
    · rw [ha, h.2] at hav
      cases hav
      exact List.length_map _ _
  | xgboost =>
    have h := trainXGBoost_shape ops
      ((splitData data ts seed now).trainData.map fun row => feats.map (rowGet row))
      ((splitData data ts seed now).trainData.map fun row => rowGet row tgt)
      ((splitData data ts seed now).testData.map fun row => feats.map (rowGet row))
      ((splitData data ts seed now).testData.map fun row => rowGet row tgt)
      feats
    have hp : (trainModel ops data ⟨.xgboost, tgt, feats, ts, seed⟩ now elapsed).1.predictions
        = (trainXGBoost ops
          ((splitData data ts seed now).trainData.map fun row => feats.map (rowGet row))
          ((splitData data ts seed now).trainData.map fun row => rowGet row tgt)
          ((splitData data ts seed now).testData.map fun row => feats.map (rowGet row))
          ((splitData data ts seed now).testData.map fun row => rowGet row tgt)
          feats).1.predictions := rfl
    have ha : (trainModel ops data ⟨.xgboost, tgt, feats, ts, seed⟩ now elapsed).1.actualValues
        = (trainXGBoost ops
          ((splitData data ts seed now).trainData.map fun row => feats.map (rowGet row))
          ((splitData data ts seed now).trainData.map fun row => rowGet row tgt)
          ((splitData data ts seed now).testData.map fun row => feats.map (rowGet row))
          ((splitData data ts seed now).testData.map fun row => rowGet row tgt)
          feats).1.actualValues := rfl
    refine ⟨?_, fun av hav => ?_⟩
    · rw [hp, h.1]
      exact List.length_map _ _
    · rw [ha, h.2] at hav
      cases hav
      exact List.length_map _ _
  | svm =>
    have h := trainSVM_shape ops
      ((splitData data ts seed now).trainData.map fun row => feats.map (rowGet row))
      ((splitData data ts seed now).trainData.map fun row => rowGet row tgt)
      ((splitData data ts seed now).testData.map fun row => feats.map (rowGet row))
      ((splitData data ts seed now).testData.map fun row => rowGet row tgt)
      feats
    have hp : (trainModel ops data ⟨.svm, tgt, feats, ts, seed⟩ now elapsed).1.predictions
        = (trainSVM ops
          ((splitData data ts seed now).trainData.map fun row => feats.map (rowGet row))
          ((splitData data ts seed now).trainData.map fun row => rowGet row tgt)
          ((splitData data ts seed now).testData.map fun row => feats.map (rowGet row))
          ((splitData data ts seed now).testData.map fun row => rowGet row tgt)
          feats).1.predictions := rfl
    have ha : (trainModel ops data ⟨.svm, tgt, feats, ts, seed⟩ now elapsed).1.actualValues
        = (trainSVM ops
          ((splitData data ts seed now).trainData.map fun row => feats.map (rowGet row))
          ((splitData data ts seed now).trainData.map fun row => rowGet row tgt)
          ((splitData data ts seed now).testData.map fun row => feats.map (rowGet row))
          ((splitData data ts seed now).testData.map fun row => rowGet row tgt)
          feats).1.actualValues := rfl
    refine ⟨?_, fun av hav => ?_⟩
    · rw [hp, h.1]
      exact List.length_map _ _
    · rw [ha, h.2] at hav
      cases hav
      exact List.length_map _ _
  | knn =>
    have h := trainKNN_shape ops
      ((splitData data ts seed now).trainData.map fun row => feats.map (rowGet row))
      ((splitData data ts seed now).trainData.map fun row => rowGet row tgt)
      ((splitData data ts seed now).testData.map fun row => feats.map (rowGet row))
      ((splitData data ts seed now).testData.map fun row => rowGet row tgt)
      feats
    have hp : (trainModel ops data ⟨.knn, tgt, feats, ts, seed⟩ now elapsed).1.predictions
        = (trainKNN ops
          ((splitData data ts seed now).trainData.map fun row => feats.map (rowGet row))
          ((splitData data ts seed now).trainData.map fun row => rowGet row tgt)
          ((splitData data ts seed now).testData.map fun row => feats.map (rowGet row))
          ((splitData data ts seed now).testData.map fun row => rowGet row tgt)
          feats).1.predictions := rfl
    have ha : (trainModel ops data ⟨.knn, tgt, feats, ts, seed⟩ now elapsed).1.actualValues
        = (trainKNN ops
          ((splitData data ts seed now).trainData.map fun row => feats.map (rowGet row))
          ((splitData data ts seed now).trainData.map fun row => rowGet row tgt)
          ((splitData data ts seed now).testData.map fun row => feats.map (rowGet row))
          ((splitData data ts seed now).testData.map fun row => rowGet row tgt)
          feats).1.actualValues := rfl
    refine ⟨?_, fun av hav => ?_⟩
    · rw [hp, h.1]
      exact List.length_map _ _
    · rw [ha, h.2] at hav
      cases hav
      exact List.length_map _ _
  | naive_bayes =>
    have h := trainNaiveBayes_shape ops
      ((splitData data ts seed now).trainData.map fun row => feats.map (rowGet row))
      ((splitData data ts seed now).trainData.map fun row => rowGet row tgt)
      ((splitData data ts seed now).testData.map fun row => feats.map (rowGet row))
      ((splitData data ts seed now).testData.map fun row => rowGet row tgt)
      feats
    have hp : (trainModel ops data ⟨.naive_bayes, tgt, feats, ts, seed⟩ now elapsed).1.predictions
        = (trainNaiveBayes ops
          ((splitData data ts seed now).trainData.map fun row => feats.map (rowGet row))
          ((splitData data ts seed now).trainData.map fun row => rowGet row tgt)
          ((splitData data ts seed now).testData.map fun row => feats.map (rowGet row))
          ((splitData data ts seed now).testData.map fun row => rowGet row tgt)
          feats).1.predictions := rfl
    have ha : (trainModel ops data ⟨.naive_bayes, tgt, feats, ts, seed⟩ now elapsed).1.actualValues
        = (trainNaiveBayes ops
          ((splitData data ts seed now).trainData.map fun row => feats.map (rowGet row))
          ((splitData data ts seed now).trainData.map fun row => rowGet row tgt)
          ((splitData data ts seed now).testData.map fun row => feats.map (rowGet row))
          ((splitData data ts seed now).testData.map fun row => rowGet row tgt)
          feats).1.actualValues := rfl
    refine ⟨?_, fun av hav => ?_⟩
    · rw [hp, h.1]
      exact List.length_map _ _
    · rw [ha, h.2] at hav
      cases hav
      exact List.length_map _ _
  | neural_network =>
    have h := trainNeuralNetwork_shape ops
      ((splitData data ts seed now).trainData.map fun row => feats.map (rowGet row))
      ((splitData data ts seed now).trainData.map fun row => rowGet row tgt)
      ((splitData data ts seed now).testData.map fun row => feats.map (rowGet row))
      ((splitData data ts seed now).testData.map fun row => rowGet row tgt)
      feats
    have hp : (trainModel ops data ⟨.neural_network, tgt, feats, ts, seed⟩ now elapsed).1.predictions
        = (trainNeuralNetwork ops
          ((splitData data ts seed now).trainData.map fun row => feats.map (rowGet row))
          ((splitData data ts seed now).trainData.map fun row => rowGet row tgt)
          ((splitData data ts seed now).testData.map fun row => feats.map (rowGet row))
          ((splitData data ts seed now).testData.map fun row => rowGet row tgt)
          feats).1.predictions := rfl
    have ha : (trainModel ops data ⟨.neural_network, tgt, feats, ts, seed⟩ now elapsed).1.actualValues
        = (trainNeuralNetwork ops
          ((splitData data ts seed now).trainData.map fun row => feats.map (rowGet row))
          ((splitData data ts seed now).trainData.map fun row => rowGet row tgt)
          ((splitData data ts seed now).testData.map fun row => feats.map (rowGet row))
          ((splitData data ts seed now).testData.map fun row => rowGet row tgt)
          feats).1.actualValues := rfl
    refine ⟨?_, fun av hav => ?_⟩
    · rw [hp, h.1]
      exact List.length_map _ _
    · rw [ha, h.2] at hav
      cases hav
      exact List.length_map _ _
  | kmeans =>
    have h := trainKMeans_shape ops
      ((splitData data ts seed now).trainData.map fun row => feats.map (rowGet row))
      ((splitData data ts seed now).testData.map fun row => feats.map (rowGet row))
      feats
    have hp : (trainModel ops data ⟨.kmeans, tgt, feats, ts, seed⟩ now elapsed).1.predictions
        = (trainKMeans ops
          ((splitData data ts seed now).trainData.map fun row => feats.map (rowGet row))
          ((splitData data ts seed now).testData.map fun row => feats.map (rowGet row))
          feats).1.predictions := rfl
    have ha : (trainModel ops data ⟨.kmeans, tgt, feats, ts, seed⟩ now elapsed).1.actualValues
        = (trainKMeans ops
          ((splitData data ts seed now).trainData.map fun row => feats.map (rowGet row))
          ((splitData data ts seed now).testData.map fun row => feats.map (rowGet row))
          feats).1.actualValues := rfl
    refine ⟨?_, fun av hav => ?_⟩
    · rw [hp, h.1]
      exact List.length_map _ _
    · rw [ha, h.2] at hav
      exact absurd hav (by simp)

/-- Claim C8 (confirmed): for every input accepted by the dispatcher
(`testSize ∈ (0,1)`, at least one row, nonnegative effective seed — the
domain on which the original code runs to completion) and each of the 11
model types, the returned `TrainingResult`'s `predictions` has length
`⌊n · testSize⌋`, the test partition size; whenever `actualValues` is
present it has that same length. -/
theorem trainModel_predictions_spec (ops : MathOps) (data : List DRow)
    (config : ModelConfig) (now : ℤ) (elapsed : ℚ) (h0 : 0 < config.testSize)
    (h1 : config.testSize < 1) (hn : 1 ≤ data.length)
    (hs : 0 ≤ effSeed config.randomSeed now) :
    (trainModel ops data config now elapsed).1.predictions.length =
      (⌊(data.length : ℚ) * config.testSize⌋).toNat ∧
    ∀ av, (trainModel ops data config now elapsed).1.actualValues = some av →
      av.length = (⌊(data.length : ℚ) * config.testSize⌋).toNat := by
  have h := trainModel_result_shape ops data config now elapsed
  have ht := splitData_testData_length data config.testSize config.randomSeed now h1
  exact ⟨h.1.trans ht, fun av hav => (h.2 av hav).trans ht⟩

/-- Claim C8 witness: a 2-row dataset, one feature, linear regression,
`testSize = 1/2`, seed 42. -/
theorem trainModel_predictions_spec_witness :
    (0 : ℚ) < 1/2 ∧
      (trainModel ⟨fun q => q, fun q => q, fun q => q, 0, fun _ => 0⟩
          [[("x", 1), ("y", 2)], [("x", 2), ("y", 3)]]
          ⟨ModelType.linear_regression, "y", ["x"], 1/2, some 42⟩ 0 0).1.predictions.length =
        (⌊(([[("x", (1 : ℚ)), ("y", 2)], [("x", 2), ("y", 3)]] : List DRow).length : ℚ)
          * (1/2)⌋).toNat :=
  ⟨by norm_num,
   (trainModel_predictions_spec ⟨fun q => q, fun q => q, fun q => q, 0, fun _ => 0⟩
     [[("x", 1), ("y", 2)], [("x", 2), ("y", 3)]]
     ⟨ModelType.linear_regression, "y", ["x"], 1/2, some 42⟩ 0 0
     (by norm_num) (by norm_num) (by norm_num) (by norm_num [effSeed])).1⟩

/-! ## Claim C9 — progress callback traces -/

theorem runLoop_trace {σ : Type} (step : ℕ → σ → σ) (emit : ℕ → List ℚ) :
    ∀ (fuel iter : ℕ) (s : σ), (runLoop step emit fuel iter s).2 = emitSeq emit fuel iter := by
  intro fuel
  induction fuel with
  | zero => intro iter s; rfl
  | succ f ih =>
    intro iter s
    simp only [runLoop, emitSeq]
    rw [ih]

theorem emitSeq_mem {a b T : ℚ} {m : ℕ} :
    ∀ {fuel iter : ℕ} {v : ℚ}, v ∈ emitSeq (emitPat a b T m) fuel iter →
      ∃ k : ℕ, iter ≤ k ∧ k < iter + fuel ∧ v = a + (k : ℚ) / T * b := by
  intro fuel
  induction fuel with
  | zero => intro iter v hv; simp [emitSeq] at hv
  | succ f ih =>
    intro iter v hv
    simp only [emitSeq, List.mem_append] at hv
    rcases hv with hv | hv
    · refine ⟨iter, le_refl _, by omega, ?_⟩
      simp only [emitPat] at hv
      split_ifs at hv with h
      · simpa using hv
      · simp at hv
    · obtain ⟨k, hk1, hk2, hk3⟩ := ih hv
      exact ⟨k, by omega, by omega, hk3⟩

theorem emitVal_mono {a b T : ℚ} (hb : 0 ≤ b) (hT : 0 < T) {j k : ℕ} (h : j ≤ k) :
    a + (j : ℚ) / T * b ≤ a + (k : ℚ) / T * b := by
  have : (j : ℚ) / T ≤ (k : ℚ) / T :=
    div_le_div_of_nonneg_right (by exact_mod_cast h) (le_of_lt hT)
  have := mul_le_mul_of_nonneg_right this hb
  linarith

theorem emitSeq_lb {a b T : ℚ} {m : ℕ} (hb : 0 ≤ b) (hT : 0 < T) {fuel iter : ℕ} {v : ℚ}
    (hv : v ∈ emitSeq (emitPat a b T m) fuel iter) : a + (iter : ℚ) / T * b ≤ v := by
  obtain ⟨k, hk1, _, hk3⟩ := emitSeq_mem hv
  rw [hk3]
  exact emitVal_mono hb hT hk1

theorem emitSeq_lb' {a b T : ℚ} {m : ℕ} (ha : 0 ≤ a) (hb : 0 ≤ b) (hT : 0 < T)
    {fuel iter : ℕ} {v : ℚ} (hv : v ∈ emitSeq (emitPat a b T m) fuel iter) : a ≤ v := by
  have h := emitSeq_lb hb hT hv
  have h2 : (0 : ℚ) ≤ (iter : ℚ) / T * b :=
    mul_nonneg (div_nonneg (by positivity) (le_of_lt hT)) hb
  linarith

theorem emitSeq_ub {a b T : ℚ} {m : ℕ} (hb : 0 ≤ b) (hT : 0 < T) {fuel iter : ℕ}
    (hfuel : ((iter + fuel : ℕ) : ℚ) ≤ T) {v : ℚ}
    (hv : v ∈ emitSeq (emitPat a b T m) fuel iter) : v ≤ a + b := by
  obtain ⟨k, _, hk2, hk3⟩ := emitSeq_mem hv
  rw [hk3]
  have hkT : (k : ℚ) ≤ T := by
    have : (k : ℚ) < ((iter + fuel : ℕ) : ℚ) := by exact_mod_cast hk2
    linarith
  have h1 : (k : ℚ) / T ≤ 1 := (div_le_one hT).2 hkT
  have h2 : (k : ℚ) / T * b ≤ 1 * b := mul_le_mul_of_nonneg_right h1 hb
  linarith

theorem emitSeq_chain {a b T : ℚ} {m : ℕ} (hb : 0 ≤ b) (hT : 0 < T) :
    ∀ (fuel iter : ℕ), List.Chain' (· ≤ ·) (emitSeq (emitPat a b T m) fuel iter) := by
  intro fuel
  induction fuel with
  | zero => intro iter; simp [emitSeq]
  | succ f ih =>
    intro iter
    simp only [emitSeq, emitPat]
    split_ifs with h
    · rw [List.singleton_append]
      refine List.chain'_cons'.2 ⟨fun y hy => ?_, ih (iter + 1)⟩
      have hmem := List.mem_of_mem_head? hy
      have := emitSeq_lb hb hT hmem
      have hstep : a + (iter : ℚ) / T * b ≤ a + ((iter + 1 : ℕ) : ℚ) / T * b :=
        emitVal_mono hb hT (by omega)
      linarith
    · rw [List.nil_append]
      exact ih (iter + 1)

theorem emitSeq_zero_head (a b T : ℚ) (m fuel : ℕ) :
    emitSeq (emitPat a b T m) (fuel + 1) 0 = a :: emitSeq (emitPat a b T m) fuel 1 := by
  simp [emitSeq, emitPat]

theorem contract_wrapA (s a b T p : ℚ) (m fuel : ℕ)
    (hs0 : 0 ≤ s) (hs20 : s ≤ 20) (hsa : s ≤ a) (hb : 0 ≤ b)
    (hTf : 0 < T ∨ fuel = 0) (hfuel : ((fuel : ℕ) : ℚ) ≤ T)
    (hab : a + b ≤ p) (hp : p ≤ 100) :
    ProgressContract (s :: emitSeq (emitPat a b T m) fuel 0 ++ [p, 100]) := by
  rcases hTf with hT | hf
  · have hub : ∀ v ∈ emitSeq (emitPat a b T m) fuel 0, v ≤ a + b := fun v hv =>
      emitSeq_ub hb hT (by simpa using hfuel) hv
    have hlb : ∀ v ∈ emitSeq (emitPat a b T m) fuel 0, a ≤ v := fun v hv =>
      emitSeq_lb' (by linarith) hb hT hv
    refine ⟨?_, ?_, ?_, ⟨s, rfl, hs20⟩, ?_⟩
    · refine List.chain'_cons'.2 ⟨fun y hy => ?_, ?_⟩
      · rcases List.mem_append.1 (List.mem_of_mem_head? hy) with hm | hm
        · have := hlb y hm
          linarith
        · rcases List.mem_pair.1 hm with h | h <;> subst h <;> linarith
      · refine List.chain'_append.2 ⟨emitSeq_chain hb hT fuel 0,
          List.chain'_pair.2 hp, fun x hx y hy => ?_⟩
        have hxm := hub x (List.mem_of_mem_getLast? hx)
        have hyp : p = y := by simpa using hy
        subst hyp
        linarith
    · intro v hv
      rcases List.mem_cons.1 hv with h | h
      · subst h
        exact ⟨hs0, by linarith⟩
      rcases List.mem_append.1 h with hm | hm
      · have h1 := hlb v hm
        have h2 := hub v hm
        exact ⟨by linarith, by linarith⟩
      · rcases List.mem_pair.1 hm with h | h <;> subst h
        · exact ⟨by linarith, hp⟩
        · norm_num
    · have hrw : s :: emitSeq (emitPat a b T m) fuel 0 ++ [p, 100] =
          (s :: (emitSeq (emitPat a b T m) fuel 0 ++ [p])) ++ [100] := by
        simp
      rw [hrw]
      exact List.getLast?_concat _
    · simp only [List.length_cons, List.length_append]
      omega
  · subst hf
    refine ⟨?_, ?_, rfl, ⟨s, rfl, hs20⟩, by norm_num [emitSeq]⟩
    · show List.Chain' (· ≤ ·) [s, p, 100]
      exact List.chain'_cons'.2 ⟨fun y hy => by
        have hyp : p = y := by simpa using hy
        subst hyp
        linarith, List.chain'_pair.2 hp⟩
    · intro v hv
      have : v = s ∨ v = p ∨ v = 100 := by simpa [emitSeq] using hv
      rcases this with h | h | h <;> subst h
      · exact ⟨hs0, by linarith⟩
      · exact ⟨by linarith, hp⟩
      · norm_num

theorem contract_wrapB (s a b T : ℚ) (m fuel : ℕ)
    (hs0 : 0 ≤ s) (hs20 : s ≤ 20) (hsa : s ≤ a) (hb : 0 ≤ b)
    (hT : 0 < T) (hfuel : ((fuel : ℕ) : ℚ) ≤ T) (hfu : 1 ≤ fuel)
    (hab : a + b ≤ 100) :
    ProgressContract (s :: emitSeq (emitPat a b T m) fuel 0 ++ [100]) := by
  have hub : ∀ v ∈ emitSeq (emitPat a b T m) fuel 0, v ≤ a + b := fun v hv =>
    emitSeq_ub hb hT (by simpa using hfuel) hv
  have hlb : ∀ v ∈ emitSeq (emitPat a b T m) fuel 0, a ≤ v := fun v hv =>
    emitSeq_lb' (by linarith) hb hT hv
  obtain ⟨f, rfl⟩ : ∃ f, fuel = f + 1 := ⟨fuel - 1, by omega⟩
  refine ⟨?_, ?_, ?_, ⟨s, rfl, hs20⟩, ?_⟩
  · refine List.chain'_cons'.2 ⟨fun y hy => ?_, ?_⟩
    · rcases List.mem_append.1 (List.mem_of_mem_head? hy) with hm | hm
      · have := hlb y hm
        linarith
      · have : y = 100 := by simpa using hm
        subst this
        linarith
    · refine List.chain'_append.2 ⟨emitSeq_chain hb hT (f + 1) 0,
        List.chain'_singleton _, fun x hx y hy => ?_⟩
      have hxm := hub x (List.mem_of_mem_getLast? hx)
      have hyv : (100 : ℚ) = y := by simpa using hy
      linarith
  · intro v hv
    rcases List.mem_cons.1 hv with h | h
    · subst h
      exact ⟨hs0, by linarith⟩
    rcases List.mem_append.1 h with hm | hm
    · have h1 := hlb v hm
      have h2 := hub v hm
      exact ⟨by linarith, by linarith⟩
    · have : v = 100 := by simpa using hm
      subst this
      norm_num
  · have hrw : s :: emitSeq (emitPat a b T m) (f + 1) 0 ++ [100] =
        (s :: emitSeq (emitPat a b T m) (f + 1) 0) ++ [100] := by simp
    rw [hrw]
    exact List.getLast?_concat _
  · rw [emitSeq_zero_head]
    simp only [List.length_cons, List.length_append]
    omega

theorem contract_wrapC (s1 s2 a b T : ℚ) (m fuel : ℕ)
    (hs10 : 0 ≤ s1) (hs120 : s1 ≤ 20) (hs12 : s1 ≤ s2) (hs2a : s2 ≤ a) (hb : 0 ≤ b)
    (hTf : 0 < T ∨ fuel = 0) (hfuel : ((fuel : ℕ) : ℚ) ≤ T)
    (hab : a + b ≤ 100) :
    ProgressContract (s1 :: s2 :: emitSeq (emitPat a b T m) fuel 0 ++ [100]) := by
  have hmain : ∀ v ∈ emitSeq (emitPat a b T m) fuel 0, a ≤ v ∧ v ≤ a + b := by
    rcases hTf with hT | hf
    · exact fun v hv => ⟨emitSeq_lb' (by linarith) hb hT hv,
        emitSeq_ub hb hT (by simpa using hfuel) hv⟩
    · subst hf
      intro v hv
      simp [emitSeq] at hv
  refine ⟨?_, ?_, ?_, ⟨s1, rfl, hs120⟩, ?_⟩
  · refine List.chain'_cons'.2 ⟨fun y hy => ?_, ?_⟩
    · have : s2 = y := by simpa using hy
      linarith
    refine List.chain'_cons'.2 ⟨fun y hy => ?_, ?_⟩
    · rcases List.mem_append.1 (List.mem_of_mem_head? hy) with hm | hm
      · have := (hmain y hm).1
        linarith
      · have : y = 100 := by simpa using hm
        subst this
        linarith
    · refine List.chain'_append.2 ⟨?_, List.chain'_singleton _, fun x hx y hy => ?_⟩
      · rcases hTf with hT | hf
        · exact emitSeq_chain hb hT fuel 0
        · subst hf
          simp [emitSeq]
      · have hxm := (hmain x (List.mem_of_mem_getLast? hx)).2
        have hyv : (100 : ℚ) = y := by simpa using hy
        linarith
  · intro v hv
    rcases List.mem_cons.1 hv with h | h
    · subst h
      exact ⟨hs10, by linarith⟩
    rcases List.mem_cons.1 h with h | h
    · subst h
      constructor <;> linarith
    rcases List.mem_append.1 h with hm | hm
    · have h1 := hmain v hm
      constructor <;> linarith [h1.1, h1.2]
    · have : v = 100 := by simpa using hm
      subst this
      norm_num
  · have hrw : s1 :: s2 :: emitSeq (emitPat a b T m) fuel 0 ++ [100] =
        (s1 :: s2 :: emitSeq (emitPat a b T m) fuel 0) ++ [100] := by simp
    rw [hrw]
    exact List.getLast?_concat _
  · simp only [List.length_cons, List.length_append]
    omega

theorem contract_wrapD (a b T p : ℚ) (m fuel : ℕ)
    (ha0 : 0 ≤ a) (ha20 : a ≤ 20) (hb : 0 ≤ b) (hT : 0 < T)
    (hfuel : ((fuel + 1 : ℕ) : ℚ) ≤ T) (hab : a + b ≤ p) (hp : p ≤ 100) :
    ProgressContract (emitSeq (emitPat a b T m) (fuel + 1) 0 ++ [p, 100]) := by
  rw [emitSeq_zero_head]
  have hub : ∀ v ∈ emitSeq (emitPat a b T m) fuel 1, v ≤ a + b := fun v hv =>
    emitSeq_ub hb hT (by push_cast at hfuel ⊢; linarith) hv
  have hlb : ∀ v ∈ emitSeq (emitPat a b T m) fuel 1, a ≤ v := fun v hv =>
    emitSeq_lb' ha0 hb hT hv
  refine ⟨?_, ?_, ?_, ⟨a, rfl, ha20⟩, ?_⟩
  · refine List.chain'_cons'.2 ⟨fun y hy => ?_, ?_⟩
    · rcases List.mem_append.1 (List.mem_of_mem_head? hy) with hm | hm
      · exact hlb y hm
      · rcases List.mem_pair.1 hm with h | h <;> subst h <;> linarith
    · refine List.chain'_append.2 ⟨emitSeq_chain hb hT fuel 1,
        List.chain'_pair.2 hp, fun x hx y hy => ?_⟩
      have hxm := hub x (List.mem_of_mem_getLast? hx)
      have hyp : p = y := by simpa using hy
      subst hyp
      linarith
  · intro v hv
    rcases List.mem_cons.1 hv with h | h
    · subst h
      exact ⟨ha0, by linarith⟩
    rcases List.mem_append.1 h with hm | hm
    · have h1 := hlb v hm
      have h2 := hub v hm
      exact ⟨by linarith, by linarith⟩
    · rcases List.mem_pair.1 hm with h | h <;> subst h
      · exact ⟨by linarith, hp⟩
      · norm_num
  · have hrw : a :: emitSeq (emitPat a b T m) fuel 1 ++ [p, 100] =
        (a :: (emitSeq (emitPat a b T m) fuel 1 ++ [p])) ++ [100] := by simp
    rw [hrw]
    exact List.getLast?_concat _
  · simp only [List.length_cons, List.length_append]
    omega

theorem trainLinearRegression_trace (ops : MathOps) (Xtr : List (List ℚ)) (ytr : List ℚ)
    (Xte : List (List ℚ)) (yte : List ℚ) (nms : List String) :
    (trainLinearRegression ops Xtr ytr Xte yte nms).2 =
      20 :: emitSeq (emitPat 20 60 1000 100) 1000 0 ++ [80, 100] := by
  simp only [trainLinearRegression, runLoop_trace]

theorem trainLogisticRegression_trace (ops : MathOps) (Xtr : List (List ℚ)) (ytr : List ℚ)
    (Xte : List (List ℚ)) (yte : List ℚ) (nms : List String) :
    (trainLogisticRegression ops Xtr ytr Xte yte nms).2 =
      20 :: emitSeq (emitPat 20 60 1000 100) 1000 0 ++ [80, 100] := by
  simp only [trainLogisticRegression, runLoop_trace]

theorem trainDecisionTree_trace (ops : MathOps) (Xtr : List (List ℚ)) (ytr : List ℚ)
    (Xte : List (List ℚ)) (yte : List ℚ) (nms : List String) :
    (trainDecisionTree ops Xtr ytr Xte yte nms).2 = [50, 100] := rfl

theorem trainRandomForest_trace (ops : MathOps) (Xtr : List (List ℚ)) (ytr : List ℚ)
    (Xte : List (List ℚ)) (yte : List ℚ) (nms : List String) :
    (trainRandomForest ops Xtr ytr Xte yte nms).2 =
      10 :: emitSeq (emitPat 10 70 10 1) 10 0 ++ [100] := by
  simp only [trainRandomForest, runLoop_trace]

theorem trainGradientBoosting_trace (ops : MathOps) (Xtr : List (List ℚ)) (ytr : List ℚ)
    (Xte : List (List ℚ)) (yte : List ℚ) (nms : List String) :
    (trainGradientBoosting ops Xtr ytr Xte yte nms).2 =
      10 :: emitSeq (emitPat 10 80 20 1) 20 0 ++ [100] := by
  simp only [trainGradientBoosting, runLoop_trace]

set_option maxRecDepth 4096 in
theorem trainXGBoost_trace (ops : MathOps) (Xtr : List (List ℚ)) (ytr : List ℚ)
    (Xte : List (List ℚ)) (yte : List ℚ) (nms : List String) :
    (trainXGBoost ops Xtr ytr Xte yte nms).2 =
      10 :: emitSeq (emitPat 10 80 30 1) 30 0 ++ [100] := by
  simp only [trainXGBoost, runLoop_trace]

theorem trainSVM_trace (ops : MathOps) (Xtr : List (List ℚ)) (ytr : List ℚ)
    (Xte : List (List ℚ)) (yte : List ℚ) (nms : List String) :
    (trainSVM ops Xtr ytr Xte yte nms).2 =
      10 :: emitSeq (emitPat 10 70 100 10) 100 0 ++ [80, 100] := by
  simp only [trainSVM, runLoop_trace]

theorem trainKNN_trace (ops : MathOps) (Xtr : List (List ℚ)) (ytr : List ℚ)
    (Xte : List (List ℚ)) (yte : List ℚ) (nms : List String) :
    (trainKNN ops Xtr ytr Xte yte nms).2 =
      20 :: emitSeq (emitPat 20 60 (Xte.length : ℚ) 10) Xte.length 0 ++ [80, 100] := rfl

theorem trainNaiveBayes_trace (ops : MathOps) (Xtr : List (List ℚ)) (ytr : List ℚ)
    (Xte : List (List ℚ)) (yte : List ℚ) (nms : List String) :
    (trainNaiveBayes ops Xtr ytr Xte yte nms).2 =
      20 :: 60 :: emitSeq (emitPat 60 30 (Xte.length : ℚ) 10) Xte.length 0 ++ [100] := rfl

theorem trainNeuralNetwork_trace (ops : MathOps) (Xtr : List (List ℚ)) (ytr : List ℚ)
    (Xte : List (List ℚ)) (yte : List ℚ) (nms : List String) :
    (trainNeuralNetwork ops Xtr ytr Xte yte nms).2 =
      emitSeq (emitPat 10 80 50 5) 50 0 ++ [90, 100] := by
  simp only [trainNeuralNetwork, runLoop_trace]

theorem trainKMeans_trace (ops : MathOps) (Xtr : List (List ℚ))
    (Xte : List (List ℚ)) (nms : List String) :
    (trainKMeans ops Xtr Xte nms).2 =
      20 :: emitSeq (emitPat 20 60 100 10) 100 0 ++ [80, 100] := by
  simp only [trainKMeans, runLoop_trace]

/-- Claim C9, counterexample: `trainDecisionTree` reports progress only as
`[50, 100]` — its first call is 50, not a low value, and there is no call
strictly between the first and the final 100 (the trace has only two
entries), so the claimed progress contract fails for it. -/
theorem trainDecisionTree_progress_counterexample :
    (trainDecisionTree ⟨fun q => q, fun q => q, fun q => q, 0, fun _ => 0⟩
        [[1]] [1] [[1]] [1] ["f"]).2 = [50, 100] ∧
      ¬ ProgressContract [50, 100] := by
  refine ⟨rfl, fun h => ?_⟩
  have := h.2.2.2.2
  simp at this

/-- Claim C9 (amended): for every input, ten of the eleven trainers emit a
progress trace that is monotonically non-decreasing, stays within
[0, 100], starts with a low value (≤ 20), ends with exactly 100 and
contains at least one call strictly between the first and the last; the
exception is `trainDecisionTree`, whose trace is exactly `[50, 100]` —
monotone, in range and ending at 100, but with a first value of 50 and no
intermediate call. -/
theorem trainers_progress_spec (ops : MathOps) (Xtr : List (List ℚ)) (ytr : List ℚ)
    (Xte : List (List ℚ)) (yte : List ℚ) (nms : List String) :
    ProgressContract (trainLinearRegression ops Xtr ytr Xte yte nms).2 ∧
    ProgressContract (trainLogisticRegression ops Xtr ytr Xte yte nms).2 ∧
    ProgressContract (trainRandomForest ops Xtr ytr Xte yte nms).2 ∧
    ProgressContract (trainGradientBoosting ops Xtr ytr Xte yte nms).2 ∧
    ProgressContract (trainXGBoost ops Xtr ytr Xte yte nms).2 ∧
    ProgressContract (trainSVM ops Xtr ytr Xte yte nms).2 ∧
    ProgressContract (trainKNN ops Xtr ytr Xte yte nms).2 ∧
    ProgressContract (trainNaiveBayes ops Xtr ytr Xte yte nms).2 ∧
    ProgressContract (trainNeuralNetwork ops Xtr ytr Xte yte nms).2 ∧
    ProgressContract (trainKMeans ops Xtr Xte nms).2 ∧
    (trainDecisionTree ops Xtr ytr Xte yte nms).2 = [50, 100] := by
  have hTf : 0 < ((Xte.length : ℕ) : ℚ) ∨ Xte.length = 0 := by
    rcases Nat.eq_zero_or_pos Xte.length with h | h
    · exact Or.inr h
    · exact Or.inl (by exact_mod_cast h)
  refine ⟨?_, ?_, ?_, ?_, ?_, ?_, ?_, ?_, ?_, ?_, trainDecisionTree_trace ops Xtr ytr Xte yte nms⟩
  · rw [trainLinearRegression_trace]
    exact contract_wrapA 20 20 60 1000 80 100 1000 (by norm_num) (by norm_num) (by norm_num)
      (by norm_num) (Or.inl (by norm_num)) (by norm_num) (by norm_num) (by norm_num)
  · rw [trainLogisticRegression_trace]
    exact contract_wrapA 20 20 60 1000 80 100 1000 (by norm_num) (by norm_num) (by norm_num)
      (by norm_num) (Or.inl (by norm_num)) (by norm_num) (by norm_num) (by norm_num)
  · rw [trainRandomForest_trace]
    exact contract_wrapB 10 10 70 10 1 10 (by norm_num) (by norm_num) (by norm_num)
      (by norm_num) (by norm_num) (by norm_num) (by norm_num) (by norm_num)
  · rw [trainGradientBoosting_trace]
    exact contract_wrapB 10 10 80 20 1 20 (by norm_num) (by norm_num) (by norm_num)
      (by norm_num) (by norm_num) (by norm_num) (by norm_num) (by norm_num)
  · rw [trainXGBoost_trace]
    exact contract_wrapB 10 10 80 30 1 30 (by norm_num) (by norm_num) (by norm_num)
      (by norm_num) (by norm_num) (by norm_num) (by norm_num) (by norm_num)
  · rw [trainSVM_trace]
    exact contract_wrapA 10 10 70 100 80 10 100 (by norm_num) (by norm_num) (by norm_num)
      (by norm_num) (Or.inl (by norm_num)) (by norm_num) (by norm_num) (by norm_num)
  · rw [trainKNN_trace]
    exact contract_wrapA 20 20 60 (Xte.length : ℚ) 80 10 Xte.length (by norm_num)
      (by norm_num) (by norm_num) (by norm_num) hTf (le_refl _) (by norm_num) (by norm_num)
  · rw [trainNaiveBayes_trace]
    exact contract_wrapC 20 60 60 30 (Xte.length : ℚ) 10 Xte.length (by norm_num)
      (by norm_num) (by norm_num) (by norm_num) (by norm_num) hTf (le_refl _) (by norm_num)
  · rw [trainNeuralNetwork_trace]
    exact contract_wrapD 10 80 50 90 5 49 (by norm_num) (by norm_num) (by norm_num)
      (by norm_num) (by norm_num) (by norm_num) (by norm_num)
  · rw [trainKMeans_trace]
    exact contract_wrapA 20 20 60 100 80 10 100 (by norm_num) (by norm_num) (by norm_num)
      (by norm_num) (Or.inl (by norm_num)) (by norm_num) (by norm_num) (by norm_num)
